import Mathlib

/-!
Shallow embedding of the `mist` simulation driver (`include/mist/driver.hpp`)
and of the multi-dimensional index arithmetic (`mist.hpp`), together with
theorems settling the specification claims about them.

Conventions of the embedding:
* C++ `double` is modelled as `ℚ` (exact rational arithmetic; the claims under
  study are about control flow and exact algebraic relations, not rounding).
* C++ `int` is modelled as `ℤ`, `std::size_t` as `ℕ`; `unsigned int`
  multiplication in `size` keeps its wrap-around modulus `2^32`.
* Exceptions are modelled with `Except String`; `std::out_of_range` thrown by
  a physics `get_time` probe is modelled as `Except Unit`.
* The physics template parameter `P` of the driver is modelled by a structure
  `PhysicsModel σ` holding the operations the driver consumes (the physics
  configuration argument is folded into the closures).
* Side-effecting output callbacks are modelled by a trace of `OutputEvent`s
  recording which callback fired and with which state; the `while (true)` loop
  is modelled with explicit fuel, `none` standing for "fuel exhausted before
  the termination condition was reached".
-/

namespace mist

-- ===========================================================================
-- Physics capability contract (driver-side view of the Physics concept)
-- ===========================================================================

/-- The operations of the `Physics` concept that the driver consumes, with the
physics configuration folded into the closures.  `get_time` is total here; the
loop only queries it at supported kinds.  The message formatter's fallible
probe is modelled separately by `probeGo` below. -/
structure PhysicsModel (σ : Type) where
  initial_state : σ
  euler_step : σ → ℚ → σ
  courant_time : σ → ℚ
  average : σ → σ → ℚ → σ
  get_time : σ → ℤ → ℚ
  timeseries_sample : σ → List (String × ℚ)

-- ===========================================================================
-- Time integrators (rk1_step / rk2_step / rk3_step)
-- ===========================================================================

/-- `rk1_step`: `return euler_step(cfg, s0, dt);` -/
def rk1_step {σ : Type} (P : PhysicsModel σ) (s0 : σ) (dt : ℚ) : σ :=
  P.euler_step s0 dt

/-- `rk2_step`: `s1 = euler_step(s0,dt); s2 = euler_step(s1,dt);
return average(s0, s2, 0.5);` -/
def rk2_step {σ : Type} (P : PhysicsModel σ) (s0 : σ) (dt : ℚ) : σ :=
  let s1 := P.euler_step s0 dt
  let s2 := P.euler_step s1 dt
  P.average s0 s2 (1 / 2)

/-- `rk3_step`: `s1 = euler_step(s0,dt); s2 = euler_step(s1,dt);
s3 = euler_step(average(s0, s2, 0.25), dt); return average(s0, s3, 2.0/3.0);` -/
def rk3_step {σ : Type} (P : PhysicsModel σ) (s0 : σ) (dt : ℚ) : σ :=
  let s1 := P.euler_step s0 dt
  let s2 := P.euler_step s1 dt
  let s3 := P.euler_step (P.average s0 s2 (1 / 4)) dt
  P.average s0 s3 (2 / 3)

/-- The convex-combination `blend` contract that the physics module's
`average` is specified to satisfy: `(1-alpha)*a + alpha*b` (here for scalar
states). -/
def convex_blend (a b alpha : ℚ) : ℚ :=
  (1 - alpha) * a + alpha * b

-- ===========================================================================
-- Scheduling policy
-- ===========================================================================

/-- `enum class scheduling_policy { nearest, exact };` -/
inductive SchedulingPolicy where
  | nearest : SchedulingPolicy
  | exact : SchedulingPolicy
deriving DecidableEq, Repr

/-- `parse_scheduling_policy`: `"exact"` and `"nearest"` parse, anything else
throws `"scheduling policy must be 'exact' or 'nearest'"`. -/
def parse_scheduling_policy (str : String) : Except String SchedulingPolicy :=
  if str = "exact" then Except.ok SchedulingPolicy.exact
  else if str = "nearest" then Except.ok SchedulingPolicy.nearest
  else Except.error "scheduling policy must be 'exact' or 'nearest'"

-- ===========================================================================
-- Scheduled output abstraction
-- ===========================================================================

/-- The immutable part of `scheduled_output`: `interval`, `interval_kind`,
`policy`.  The mutable `{count, next_time}` pair (pointers into the driver
state in C++) is passed explicitly to the two handlers, which return the
updated pair together with the state handed to the callback, if any. -/
structure ScheduledOutput where
  interval : ℚ
  interval_kind : ℤ
  policy : SchedulingPolicy
deriving DecidableEq, Repr

/-- `scheduled_output::validate`: exact scheduling requires
`interval_kind = 0`, else a runtime error is thrown. -/
def scheduled_output_validate (o : ScheduledOutput) : Except String Unit :=
  if o.policy = SchedulingPolicy.exact ∧ o.interval_kind ≠ 0 then
    Except.error "exact scheduling requires interval_kind = 0"
  else Except.ok ()

/-- `scheduled_output::handle_exact_output`: when `policy == exact` and
`interval_kind == 0` and `t0 < *next_time && t1 >= *next_time`, build the
interpolated state `rk_step(state, *next_time - t0)`, increment the count,
advance `next_time` by `interval` and hand the interpolated state to the
callback.  `rk` is fallible because the driver's `rk_step` lambda throws on an
unsupported order. -/
def handle_exact_output {σ : Type} (o : ScheduledOutput) (t0 t1 : ℚ) (state : σ)
    (rk : σ → ℚ → Except String σ) (count : ℤ) (next_time : ℚ) :
    Except String (ℤ × ℚ × Option σ) :=
  if o.policy = SchedulingPolicy.exact ∧ o.interval_kind = 0 then
    if t0 < next_time ∧ t1 ≥ next_time then do
      let state_exact ← rk state (next_time - t0)
      Except.ok (count + 1, next_time + o.interval, some state_exact)
    else Except.ok (count, next_time, none)
  else Except.ok (count, next_time, none)

/-- `scheduled_output::handle_nearest_output`: when `policy == nearest` and
`get_time(state, interval_kind) >= *next_time`, increment the count, advance
`next_time` by `interval` and hand the (post-step) state to the callback. -/
def handle_nearest_output {σ : Type} (o : ScheduledOutput) (state : σ)
    (get_time : σ → ℤ → ℚ) (count : ℤ) (next_time : ℚ) : ℤ × ℚ × Option σ :=
  if o.policy = SchedulingPolicy.nearest then
    if get_time state o.interval_kind ≥ next_time then
      (count + 1, next_time + o.interval, some state)
    else (count, next_time, none)
  else (count, next_time, none)

-- ===========================================================================
-- Driver state
-- ===========================================================================

/-- `driver_state_t`. -/
structure DriverState where
  iteration : ℤ
  message_count : ℤ
  checkpoint_count : ℤ
  products_count : ℤ
  timeseries_count : ℤ
  next_message_time : ℚ
  next_checkpoint_time : ℚ
  next_products_time : ℚ
  next_timeseries_time : ℚ
  timeseries_data : List (String × List ℚ)
deriving DecidableEq, Repr

/-- The default-constructed `driver_state_t` (all counters zero, all clocks
zero, empty timeseries). -/
def freshDriverState : DriverState :=
  { iteration := 0
    message_count := 0
    checkpoint_count := 0
    products_count := 0
    timeseries_count := 0
    next_message_time := 0
    next_checkpoint_time := 0
    next_products_time := 0
    next_timeseries_time := 0
    timeseries_data := [] }

-- ===========================================================================
-- Driver configuration
-- ===========================================================================

/-- `driver::config_t` (the fields the run loop reads). -/
structure DriverConfig where
  rk_order : ℤ
  cfl : ℚ
  t_final : ℚ
  max_iter : ℤ
  message_interval : ℚ
  message_interval_kind : ℤ
  message_scheduling : String
  checkpoint_interval : ℚ
  checkpoint_interval_kind : ℤ
  checkpoint_scheduling : String
  products_interval : ℚ
  products_interval_kind : ℤ
  products_scheduling : String
  timeseries_interval : ℚ
  timeseries_interval_kind : ℤ
  timeseries_scheduling : String
deriving DecidableEq, Repr

-- ===========================================================================
-- Timeseries accumulation
-- ===========================================================================

/-- One pair of `accumulate_timeseries_sample`'s loop: `find_if` the first
column with this name and `push_back` to it, else `push_back` a fresh
single-element column. -/
def addSample (cols : List (String × List ℚ)) (name : String) (value : ℚ) :
    List (String × List ℚ) :=
  match cols with
  | [] => [(name, [value])]
  | c :: rest =>
    if c.1 = name then (c.1, c.2 ++ [value]) :: rest
    else c :: addSample rest name value

/-- `accumulate_timeseries_sample`: process the sample's `(name, value)` pairs
in order. -/
def accumulate_timeseries_sample (cols : List (String × List ℚ))
    (sample : List (String × ℚ)) : List (String × List ℚ) :=
  sample.foldl (fun c p => addSample c p.1 p.2) cols

/-- The value sequence currently stored under a column name (first matching
column; `[]` when the column does not exist). -/
def getCol : List (String × List ℚ) → String → List ℚ
  | [], _ => []
  | c :: rest, n => if c.1 = n then c.2 else getCol rest n

-- ===========================================================================
-- Message-formatter time-kind probe
-- ===========================================================================

/-- The body of `for (int kind = 1; kind <= 10; ++kind) { try ... catch
(std::out_of_range&) break; }` in the message callback: probe `get_time` at
`kind`, `kind+1`, ... for `n` more iterations, stopping at the first
out-of-range condition.  Collects the `(kind, value)` pairs printed. -/
def probeGo (gt : ℤ → Except Unit ℚ) : ℤ → ℕ → List (ℤ × ℚ)
  | _, 0 => []
  | kind, n + 1 =>
    match gt kind with
    | Except.error _ => []
    | Except.ok t => (kind, t) :: probeGo gt (kind + 1) n

/-- The auxiliary time-kind scan of the message callback: kinds 1 up to at
most 10. -/
def probe_time_kinds (gt : ℤ → Except Unit ℚ) : List (ℤ × ℚ) :=
  probeGo gt 1 10

-- ===========================================================================
-- Main driver (`run`)
-- ===========================================================================

/-- One observable output side effect: which channel's callback fired, and
with which state it was invoked. -/
inductive OutputEvent (σ : Type) where
  | message : σ → OutputEvent σ
  | checkpoint : σ → OutputEvent σ
  | products : σ → OutputEvent σ
  | timeseries : σ → OutputEvent σ
deriving DecidableEq, Repr

/-- The events produced by one (possible) callback invocation. -/
def optEvent {σ : Type} (f : σ → OutputEvent σ) : Option σ → List (OutputEvent σ)
  | some s => [f s]
  | none => []

/-- The `rk_step` lambda of `run`: dispatch on `rk_order`, throwing
`"rk_order must be 1, 2, or 3"` on any other order.  The check happens at the
first invocation, exactly as the C++ lambda throws when called. -/
def rk_step_fn {σ : Type} (P : PhysicsModel σ) (order : ℤ) (s : σ) (dt : ℚ) :
    Except String σ :=
  if order = 1 then Except.ok (rk1_step P s dt)
  else if order = 2 then Except.ok (rk2_step P s dt)
  else if order = 3 then Except.ok (rk3_step P s dt)
  else Except.error "rk_order must be 1, 2, or 3"

/-- The body of one `while (true)` iteration of `run`, after the termination
checks: exact-policy evaluation of the four channels in array order (message,
checkpoint, products, timeseries) on the pre-step state, the real step, then
nearest-policy evaluation of the four channels on the post-step state.
Returns the events emitted so far even when an exception aborts the body
midway (file writes that already happened are not undone by a later throw). -/
def stepOnce {σ : Type} (P : PhysicsModel σ) (cfg : DriverConfig)
    (rk : σ → ℚ → Except String σ) (mo co po tso : ScheduledOutput)
    (state : σ) (ds : DriverState) :
    List (OutputEvent σ) × Except String (σ × DriverState) :=
  let t0 := P.get_time state 0
  let dt := cfg.cfl * P.courant_time state
  let t1 := t0 + dt
  match handle_exact_output mo t0 t1 state rk ds.message_count ds.next_message_time with
  | Except.error e => ([], Except.error e)
  | Except.ok (mc, mnt, mf) =>
  match handle_exact_output co t0 t1 state rk ds.checkpoint_count ds.next_checkpoint_time with
  | Except.error e => (optEvent OutputEvent.message mf, Except.error e)
  | Except.ok (cc, cnt, cf) =>
  match handle_exact_output po t0 t1 state rk ds.products_count ds.next_products_time with
  | Except.error e =>
    (optEvent OutputEvent.message mf ++ optEvent OutputEvent.checkpoint cf, Except.error e)
  | Except.ok (pc, pnt, pf) =>
  match handle_exact_output tso t0 t1 state rk ds.timeseries_count ds.next_timeseries_time with
  | Except.error e =>
    (optEvent OutputEvent.message mf ++ optEvent OutputEvent.checkpoint cf
      ++ optEvent OutputEvent.products pf, Except.error e)
  | Except.ok (tc, tnt, tf) =>
  let evs1 := optEvent OutputEvent.message mf ++ optEvent OutputEvent.checkpoint cf
      ++ optEvent OutputEvent.products pf ++ optEvent OutputEvent.timeseries tf
  let ds1 : DriverState :=
    { iteration := ds.iteration
      message_count := mc
      checkpoint_count := cc
      products_count := pc
      timeseries_count := tc
      next_message_time := mnt
      next_checkpoint_time := cnt
      next_products_time := pnt
      next_timeseries_time := tnt
      timeseries_data :=
        match tf with
        | some s => accumulate_timeseries_sample ds.timeseries_data (P.timeseries_sample s)
        | none => ds.timeseries_data }
  match rk state dt with
  | Except.error e => (evs1, Except.error e)
  | Except.ok state2 =>
  let ds2 : DriverState := { ds1 with iteration := ds1.iteration + 1 }
  let rm := handle_nearest_output mo state2 P.get_time ds2.message_count ds2.next_message_time
  let rc := handle_nearest_output co state2 P.get_time ds2.checkpoint_count ds2.next_checkpoint_time
  let rp := handle_nearest_output po state2 P.get_time ds2.products_count ds2.next_products_time
  let rt := handle_nearest_output tso state2 P.get_time ds2.timeseries_count ds2.next_timeseries_time
  let evs2 := optEvent OutputEvent.message rm.2.2 ++ optEvent OutputEvent.checkpoint rc.2.2
      ++ optEvent OutputEvent.products rp.2.2 ++ optEvent OutputEvent.timeseries rt.2.2
  let ds3 : DriverState :=
    { iteration := ds2.iteration
      message_count := rm.1
      checkpoint_count := rc.1
      products_count := rp.1
      timeseries_count := rt.1
      next_message_time := rm.2.1
      next_checkpoint_time := rc.2.1
      next_products_time := rp.2.1
      next_timeseries_time := rt.2.1
      timeseries_data :=
        match rt.2.2 with
        | some s => accumulate_timeseries_sample ds2.timeseries_data (P.timeseries_sample s)
        | none => ds2.timeseries_data }
  (evs1 ++ evs2, Except.ok (state2, ds3))

/-- The `while (true)` loop of `run`, with explicit fuel.  Termination checks
are evaluated at the top exactly as in the source: `t0 >= t_final`, then
`max_iter > 0 && iteration >= max_iter`.  `Except.ok none` means the fuel ran
out before the loop terminated. -/
def runLoop {σ : Type} (P : PhysicsModel σ) (cfg : DriverConfig)
    (rk : σ → ℚ → Except String σ) (mo co po tso : ScheduledOutput) :
    ℕ → σ → DriverState → List (OutputEvent σ) × Except String (Option (σ × DriverState))
  | 0, _, _ => ([], Except.ok none)
  | fuel + 1, state, ds =>
    if P.get_time state 0 ≥ cfg.t_final then ([], Except.ok (some (state, ds)))
    else if cfg.max_iter > 0 ∧ ds.iteration ≥ cfg.max_iter then
      ([], Except.ok (some (state, ds)))
    else
      match stepOnce P cfg rk mo co po tso state ds with
      | (evs, Except.error e) => (evs, Except.error e)
      | (evs, Except.ok (state2, ds2)) =>
        let lr := runLoop P cfg rk mo co po tso fuel state2 ds2
        (evs ++ lr.1, lr.2)

/-- The driver state entering the main loop on a fresh run: every channel's
`next_time` reset to its interval, and the timeseries sample of the initial
state already accumulated by the unconditional `t=0` output pass. -/
def run_loop_entry {σ : Type} (P : PhysicsModel σ) (cfg : DriverConfig)
    (ds0 : DriverState) : DriverState :=
  { ds0 with
    next_message_time := cfg.message_interval
    next_checkpoint_time := cfg.checkpoint_interval
    next_products_time := cfg.products_interval
    next_timeseries_time := cfg.timeseries_interval
    timeseries_data :=
      accumulate_timeseries_sample ds0.timeseries_data
        (P.timeseries_sample P.initial_state) }

/-- `run`: build the initial state; on a fresh run (`iteration == 0`) reset
every channel's `next_time` to its interval; construct the four scheduled
outputs (parsing their policies); validate them; on a fresh run fire the
checkpoint, products and timeseries callbacks (outputs 1..3, not the message
output 0) once with the initial state; then enter the main loop.  The first
component is the ordered trace of callback invocations. -/
def run {σ : Type} (P : PhysicsModel σ) (cfg : DriverConfig) (fuel : ℕ)
    (ds0 : DriverState) :
    List (OutputEvent σ) × Except String (Option (σ × DriverState)) :=
  let state := P.initial_state
  let ds :=
    if ds0.iteration = 0 then
      { ds0 with
        next_message_time := cfg.message_interval
        next_checkpoint_time := cfg.checkpoint_interval
        next_products_time := cfg.products_interval
        next_timeseries_time := cfg.timeseries_interval }
    else ds0
  match parse_scheduling_policy cfg.message_scheduling with
  | Except.error e => ([], Except.error e)
  | Except.ok pm =>
  match parse_scheduling_policy cfg.checkpoint_scheduling with
  | Except.error e => ([], Except.error e)
  | Except.ok pc =>
  match parse_scheduling_policy cfg.products_scheduling with
  | Except.error e => ([], Except.error e)
  | Except.ok pp =>
  match parse_scheduling_policy cfg.timeseries_scheduling with
  | Except.error e => ([], Except.error e)
  | Except.ok pt =>
  let mo : ScheduledOutput := ⟨cfg.message_interval, cfg.message_interval_kind, pm⟩
  let co : ScheduledOutput := ⟨cfg.checkpoint_interval, cfg.checkpoint_interval_kind, pc⟩
  let po : ScheduledOutput := ⟨cfg.products_interval, cfg.products_interval_kind, pp⟩
  let tso : ScheduledOutput := ⟨cfg.timeseries_interval, cfg.timeseries_interval_kind, pt⟩
  match scheduled_output_validate mo with
  | Except.error e => ([], Except.error e)
  | Except.ok _ =>
  match scheduled_output_validate co with
  | Except.error e => ([], Except.error e)
  | Except.ok _ =>
  match scheduled_output_validate po with
  | Except.error e => ([], Except.error e)
  | Except.ok _ =>
  match scheduled_output_validate tso with
  | Except.error e => ([], Except.error e)
  | Except.ok _ =>
  let ds1 :=
    if ds.iteration = 0 then
      { ds with
        timeseries_data :=
          accumulate_timeseries_sample ds.timeseries_data
            (P.timeseries_sample state) }
    else ds
  let initEvents : List (OutputEvent σ) :=
    if ds.iteration = 0 then
      [OutputEvent.checkpoint state, OutputEvent.products state, OutputEvent.timeseries state]
    else []
  let lr := runLoop P cfg (rk_step_fn P cfg.rk_order) mo co po tso fuel state ds1
  (initEvents ++ lr.1, lr.2)

-- ===========================================================================
-- Multi-dimensional index arithmetic (`mist.hpp`)
-- ===========================================================================

/-- `index_space_t`: a start vector (`ivec_t`, int entries) and a shape vector
(`uvec_t`, unsigned entries), here as equal-length lists. -/
structure index_space_t where
  start : List ℤ
  shape : List ℕ
deriving DecidableEq, Repr

/-- The `(index, start, shape)` triples the component loops walk over. -/
def zip3idx (idx : List ℤ) (sts : List ℤ) (shs : List ℕ) : List (ℤ × ℤ × ℕ) :=
  List.zip idx (List.zip sts shs)

/-- Conversion of a (possibly negative) `int` value to `std::size_t`:
reduction modulo `2^64`. -/
def size_t_of_int (i : ℤ) : ℕ :=
  (i % 18446744073709551616).toNat

/-- `static_cast<int>` of an unsigned value: reduce modulo `2^32` and map into
`[-2^31, 2^31)` (two's complement). -/
def int_of_uint (n : ℕ) : ℤ :=
  if n % 4294967296 < 2147483648 then ((n % 4294967296 : ℕ) : ℤ)
  else ((n % 4294967296 : ℕ) : ℤ) - 4294967296

/-- `size`: the product of the shape components, accumulated in a 32-bit
`unsigned int` (wrap-around kept). -/
def size (sp : index_space_t) : ℕ :=
  sp.shape.foldl (fun total s => (total * s) % 4294967296) 1

/-- `contains`: every component within `[start, start + int(shape))`, the
shape being converted to `int` by `static_cast<int>` exactly as in the
source (the `int + int` sum itself is modelled exactly; its overflow is
undefined behavior in C++). -/
def contains (sp : index_space_t) (idx : List ℤ) : Bool :=
  (zip3idx idx sp.start sp.shape).all
    (fun t => decide (t.2.1 ≤ t.1 ∧ t.1 < t.2.1 + int_of_uint t.2.2))

/-- The loop of `ndoffset`, from the last dimension to the first:
`offset += static_cast<size_t>(index[i] - start[i]) * stride;
stride *= shape[i]`, all in `std::size_t` arithmetic (wrap-around modulo
`2^64` kept; the `int - int` difference is modelled exactly, its overflow
being undefined behavior in C++).  Returns `(offset, stride)`. -/
def ndoffsetGo : List (ℤ × ℤ × ℕ) → ℕ × ℕ
  | [] => (0, 1)
  | t :: rest =>
    let r := ndoffsetGo rest
    ((r.1 + size_t_of_int (t.1 - t.2.1) * r.2) % 18446744073709551616,
      (r.2 * t.2.2) % 18446744073709551616)

/-- `ndoffset`: multi-dimensional index to flat offset, row-major. -/
def ndoffset (sp : index_space_t) (idx : List ℤ) : ℕ :=
  (ndoffsetGo (zip3idx idx sp.start sp.shape)).1

/-- Idealized unbounded-arithmetic reference version of the `ndoffset` loop
(digits exact, no wrap-around), used only to factor the round-trip proofs:
under the machine-bound hypotheses of the theorems the wrapped loop agrees
with it. -/
def ndoffsetGoRef : List (ℤ × ℤ × ℕ) → ℕ × ℕ
  | [] => (0, 1)
  | t :: rest =>
    let r := ndoffsetGoRef rest
    (r.1 + (t.1 - t.2.1).toNat * r.2, r.2 * t.2.2)

/-- The loop of `ndindex`, from the last dimension to the first:
`index[i] = start[i] + static_cast<int>(offset % shape[i]);
offset /= shape[i]` — the `%` and `/` are exact `std::size_t` operations.
Returns the digit list (as `size_t` values, before the `int` cast) and the
leftover offset. -/
def ndindexGo : List ℕ → ℕ → List ℕ × ℕ
  | [], off => ([], off)
  | sh :: rest, off =>
    let r := ndindexGo rest off
    (r.2 % sh :: r.1, r.2 / sh)

/-- `ndindex`: flat offset to multi-dimensional index, row-major; each digit
goes through `static_cast<int>` before being added to the start component
(the `int + int` sum is modelled exactly; its overflow is undefined
behavior in C++). -/
def ndindex (sp : index_space_t) (off : ℕ) : List ℤ :=
  List.zipWith (fun st d => st + int_of_uint d) sp.start (ndindexGo sp.shape off).1

-- ===========================================================================
-- Invariant predicates and concrete instances used in the theorems
-- ===========================================================================

/-- The per-channel schedule invariant of a fresh run: for a nearest-policy
channel, the pending threshold is the `(count+1)`-st multiple of the
interval. -/
def nearestInv (o : ScheduledOutput) (c : ℤ) (nt : ℚ) : Prop :=
  o.policy = SchedulingPolicy.nearest → nt = o.interval * ((c : ℚ) + 1)

/-- The conjunction of the four channels' schedule invariants. -/
def loop_nearest_inv (mo co po tso : ScheduledOutput) (ds : DriverState) : Prop :=
  nearestInv mo ds.message_count ds.next_message_time ∧
  nearestInv co ds.checkpoint_count ds.next_checkpoint_time ∧
  nearestInv po ds.products_count ds.next_products_time ∧
  nearestInv tso ds.timeseries_count ds.next_timeseries_time

/-- A minimal concrete physics instance: the state is the simulation time
itself, one Euler step adds `dt`, the stable step is `1`, `average` is the
convex blend, and the timeseries sample reports the time. -/
def toyPhysics : PhysicsModel ℚ :=
  { initial_state := 0
    euler_step := fun s dt => s + dt
    courant_time := fun _ => 1
    average := convex_blend
    get_time := fun s _ => s
    timeseries_sample := fun s => [("t", s)] }

/-- A concrete driver configuration: first-order stepping with `dt = 1`,
`t_final = 1`, all channels nearest-policy on raw time; the checkpoint
channel has interval `1/10` (so a single unit step overshoots it by nine
intervals). -/
def cfgC5 : DriverConfig :=
  { rk_order := 1
    cfl := 1
    t_final := 1
    max_iter := -1
    message_interval := 100
    message_interval_kind := 0
    message_scheduling := "nearest"
    checkpoint_interval := 1 / 10
    checkpoint_interval_kind := 0
    checkpoint_scheduling := "nearest"
    products_interval := 100
    products_interval_kind := 0
    products_scheduling := "nearest"
    timeseries_interval := 100
    timeseries_interval_kind := 0
    timeseries_scheduling := "nearest" }

/-- `cfgC5` with the message channel set to exact policy on a non-zero time
kind (invalid combination). -/
def cfgExactBadKind : DriverConfig :=
  { cfgC5 with message_scheduling := "exact", message_interval_kind := 1 }

/-- `cfgC5` with an unsupported integrator order and `t_final = 0`, so the
loop terminates at entry without ever invoking `rk_step`. -/
def cfgBadOrderNoLoop : DriverConfig :=
  { cfgC5 with rk_order := 5, t_final := 0 }

/-- `cfgC5` with an unsupported integrator order (loop body does execute). -/
def cfgBadOrder : DriverConfig :=
  { cfgC5 with rk_order := 4 }

/-- The driver state `run toyPhysics cfgC5 2 freshDriverState` terminates
with. -/
def c5ds : DriverState :=
  { iteration := 1
    message_count := 0
    checkpoint_count := 1
    products_count := 0
    timeseries_count := 0
    next_message_time := 100
    next_checkpoint_time := 1 / 5
    next_products_time := 100
    next_timeseries_time := 100
    timeseries_data := [("t", [0])] }

/-- The driver state `run toyPhysics cfgBadOrderNoLoop 1 freshDriverState`
terminates with. -/
def c7ds : DriverState :=
  { iteration := 0
    message_count := 0
    checkpoint_count := 0
    products_count := 0
    timeseries_count := 0
    next_message_time := 100
    next_checkpoint_time := 1 / 10
    next_products_time := 100
    next_timeseries_time := 100
    timeseries_data := [("t", [0])] }

/-- A physics time-coordinate probe supporting kinds `0..11`: eleven
auxiliary kinds, one more than the message formatter's scan bound. -/
def gtElevenKinds : ℤ → Except Unit ℚ :=
  fun k => if k ≤ 11 then Except.ok (k : ℚ) else Except.error ()

-- ===========================================================================
-- C6: integrator formulas
-- ===========================================================================

/-- C6: for any physics whose `average` is the convex combination
`(1-alpha)*a + alpha*b`, the order-1 integrator returns `advance(s0, dt)`,
the order-2 integrator returns `blend(s0, advance(advance(s0,dt),dt), 0.5)`,
and the order-3 integrator returns
`blend(s0, advance(blend(s0, advance(advance(s0,dt),dt), 0.25), dt), 2/3)`. -/
theorem rk_integrator_formulas (P : PhysicsModel ℚ) (hav : P.average = convex_blend)
    (s0 dt : ℚ) :
    rk1_step P s0 dt = P.euler_step s0 dt ∧
    rk2_step P s0 dt =
      convex_blend s0 (P.euler_step (P.euler_step s0 dt) dt) (1 / 2) ∧
    rk3_step P s0 dt =
      convex_blend s0
        (P.euler_step
          (convex_blend s0 (P.euler_step (P.euler_step s0 dt) dt) (1 / 4)) dt)
        (2 / 3) := by
  refine ⟨rfl, ?_, ?_⟩ <;> simp [rk2_step, rk3_step, hav]

/-- Witness for `rk_integrator_formulas` at the toy physics instance. -/
theorem rk_integrator_formulas_witness :
    rk1_step toyPhysics 3 (1 / 2) = toyPhysics.euler_step 3 (1 / 2) ∧
    rk2_step toyPhysics 3 (1 / 2) =
      convex_blend 3 (toyPhysics.euler_step (toyPhysics.euler_step 3 (1 / 2)) (1 / 2)) (1 / 2) ∧
    rk3_step toyPhysics 3 (1 / 2) =
      convex_blend 3
        (toyPhysics.euler_step
          (convex_blend 3 (toyPhysics.euler_step (toyPhysics.euler_step 3 (1 / 2)) (1 / 2)) (1 / 4))
          (1 / 2))
        (2 / 3) :=
  rk_integrator_formulas toyPhysics rfl 3 (1 / 2)

-- ===========================================================================
-- C8: timeseries accumulation
-- ===========================================================================

/-- Appending one `(name, value)` pair touches only the column of that name:
the first matching column gains `value` at its end, a missing column is
created as `[value]`, every other column keeps its value sequence. -/
theorem getCol_addSample (cols : List (String × List ℚ)) (name : String) (v : ℚ)
    (n : String) :
    getCol (addSample cols name v) n =
      if name = n then getCol cols n ++ [v] else getCol cols n := by
  induction cols with
  | nil =>
    simp only [addSample, getCol]
    by_cases h : name = n <;> simp [h]
  | cons c rest ih =>
    obtain ⟨cn, cvs⟩ := c
    simp only [addSample]
    by_cases hc : cn = name
    · subst hc
      simp only [if_pos rfl]
      by_cases hn : cn = n <;> simp [getCol, hn]
    · simp only [if_neg hc]
      by_cases hn : cn = n
      · subst hn
        have hnn : ¬ name = cn := fun h => hc h.symm
        simp [getCol, hnn]
      · simp [getCol, hn, ih]

/-- Per-column characterization of `accumulate_timeseries_sample`: after
accumulating a sample, the column named `n` holds its previous values
followed by the sample's values for `n`, in sample order. -/
theorem getCol_accumulate (sample : List (String × ℚ)) :
    ∀ (cols : List (String × List ℚ)) (n : String),
      getCol (accumulate_timeseries_sample cols sample) n =
        getCol cols n ++ (sample.filter (fun p => p.1 == n)).map Prod.snd := by
  induction sample with
  | nil => intro cols n; simp [accumulate_timeseries_sample]
  | cons p rest ih =>
    intro cols n
    obtain ⟨pn, pv⟩ := p
    have hstep :
        accumulate_timeseries_sample cols ((pn, pv) :: rest) =
          accumulate_timeseries_sample (addSample cols pn pv) rest := rfl
    rw [hstep, ih, getCol_addSample]
    by_cases h : pn = n
    · simp [h, List.filter_cons, List.append_assoc]
    · simp [h, List.filter_cons]

/-- C8: accumulating a sample processes its `(name, value)` pairs in order,
appending to the existing column of that name or creating a fresh
single-element column, leaving all other columns unchanged; in particular
sampling `{mass: 1}` then `{mass: 2, energy: 5}` into an empty mapping
yields exactly `mass = [1, 2]` and `energy = [5]`. -/
theorem accumulate_timeseries_contract :
    (∀ (cols : List (String × List ℚ)) (sample : List (String × ℚ)) (n : String),
      getCol (accumulate_timeseries_sample cols sample) n =
        getCol cols n ++ (sample.filter (fun p => p.1 == n)).map Prod.snd) ∧
    accumulate_timeseries_sample (accumulate_timeseries_sample [] [("mass", 1)])
        [("mass", 2), ("energy", 5)] =
      [("mass", [1, 2]), ("energy", [5])] := by
  refine ⟨fun cols sample n => getCol_accumulate sample cols n, ?_⟩
  rfl

-- ===========================================================================
-- C4: nearest-policy evaluation
-- ===========================================================================

/-- C4: a nearest-policy channel fires exactly when the post-step time
coordinate for its `interval_kind` has reached `next_time`; a firing
increments the count by exactly one, advances `next_time` by exactly one
interval and hands the post-step state to the callback; otherwise the
`{count, next_time}` pair is unchanged and nothing fires (hence at most one
firing per step). -/
theorem nearest_output_fires_iff {σ : Type} (o : ScheduledOutput)
    (hpol : o.policy = SchedulingPolicy.nearest) (s : σ) (gt : σ → ℤ → ℚ)
    (c : ℤ) (nt : ℚ) :
    (gt s o.interval_kind ≥ nt →
      handle_nearest_output o s gt c nt = (c + 1, nt + o.interval, some s)) ∧
    (¬ gt s o.interval_kind ≥ nt →
      handle_nearest_output o s gt c nt = (c, nt, none)) ∧
    ((handle_nearest_output o s gt c nt).2.2.isSome ↔ gt s o.interval_kind ≥ nt) := by
  unfold handle_nearest_output
  rw [if_pos hpol]
  by_cases h : gt s o.interval_kind ≥ nt <;> simp [h]

/-- Witness for `nearest_output_fires_iff` at concrete inputs. -/
theorem nearest_output_fires_iff_witness :
    ((5 : ℚ) ≥ (2 : ℚ) →
      handle_nearest_output ⟨1, 0, SchedulingPolicy.nearest⟩ (5 : ℚ)
          (fun s _ => s) 0 2 = (1, 3, some 5)) ∧
    (¬ (5 : ℚ) ≥ (2 : ℚ) →
      handle_nearest_output ⟨1, 0, SchedulingPolicy.nearest⟩ (5 : ℚ)
          (fun s _ => s) 0 2 = (0, 2, none)) ∧
    ((handle_nearest_output ⟨1, 0, SchedulingPolicy.nearest⟩ (5 : ℚ)
        (fun s _ => s) 0 2).2.2.isSome ↔ (5 : ℚ) ≥ (2 : ℚ)) := by
  have h := nearest_output_fires_iff ⟨1, 0, SchedulingPolicy.nearest⟩ rfl (5 : ℚ)
    (fun s _ => s) 0 2
  refine ⟨fun hge => ?_, h.2.1, h.2.2⟩
  rw [h.1 hge]
  norm_num

-- ===========================================================================
-- C1: exact-policy evaluation (corrected: the bracket is half-open)
-- ===========================================================================

/-- Evaluation of `handle_exact_output` for an exact-policy channel with
`interval_kind = 0`: the code's firing test is `t0 < next_time ∧ t1 ≥
next_time`. -/
theorem handle_exact_output_eval {σ : Type} (o : ScheduledOutput)
    (hpol : o.policy = SchedulingPolicy.exact) (hk : o.interval_kind = 0)
    (t0 t1 : ℚ) (state : σ) (rk : σ → ℚ → Except String σ) (c : ℤ) (nt : ℚ)
    (se : σ) (hrk : rk state (nt - t0) = Except.ok se) :
    ((t0 < nt ∧ t1 ≥ nt) →
      handle_exact_output o t0 t1 state rk c nt =
        Except.ok (c + 1, nt + o.interval, some se)) ∧
    (¬ (t0 < nt ∧ t1 ≥ nt) →
      handle_exact_output o t0 t1 state rk c nt =
        Except.ok (c, nt, none)) := by
  unfold handle_exact_output
  rw [if_pos ⟨hpol, hk⟩]
  constructor
  · intro h
    rw [if_pos h, hrk]
    rfl
  · intro h
    rw [if_neg h]

/-- C1 counterexample: with `t0 = 0`, `dt = 1` (so `t1 = 1`) and
`next_time = 1`, the threshold is *not* strictly inside the step
(`next_time < t1` fails), yet the exact evaluation fires: the code's test is
`t0 < next_time && t1 >= next_time`. -/
theorem exact_output_strict_bracket_counterexample :
    handle_exact_output (σ := ℚ) ⟨1, 0, SchedulingPolicy.exact⟩ 0 1 0
      (fun s d => Except.ok (s + d)) 0 1 = Except.ok (1, 2, some 1) ∧
    ¬ ((0 : ℚ) < 1 ∧ (1 : ℚ) < 1) := by
  constructor
  · have h := (handle_exact_output_eval (σ := ℚ) ⟨1, 0, SchedulingPolicy.exact⟩
      rfl rfl 0 1 0 (fun s d => Except.ok (s + d)) 0 1 1 (by norm_num)).1
      ⟨by norm_num, by norm_num⟩
    rw [h]
    norm_num
  · rintro ⟨-, h⟩
    exact absurd h (lt_irrefl 1)

/-- C1 amended: with `t1 = t0 + dt`, an exact-policy channel with
`interval_kind = 0` fires its callback iff `t0 < next_time ≤ t1` (half-open
bracket, not the strict `next_time < t1`); a firing increments the count by
exactly one, advances `next_time` by exactly one interval, and hands the
callback the state obtained by advancing the pre-step state by
`next_time - t0` with the configured integrator. -/
theorem exact_output_fires_iff_half_open {σ : Type} (o : ScheduledOutput)
    (hpol : o.policy = SchedulingPolicy.exact) (hk : o.interval_kind = 0)
    (t0 dt : ℚ) (state : σ) (rk : σ → ℚ → Except String σ) (c : ℤ) (nt : ℚ)
    (se : σ) (hrk : rk state (nt - t0) = Except.ok se) :
    ((t0 < nt ∧ nt ≤ t0 + dt) →
      handle_exact_output o t0 (t0 + dt) state rk c nt =
        Except.ok (c + 1, nt + o.interval, some se)) ∧
    (¬ (t0 < nt ∧ nt ≤ t0 + dt) →
      handle_exact_output o t0 (t0 + dt) state rk c nt =
        Except.ok (c, nt, none)) := by
  have h := handle_exact_output_eval o hpol hk t0 (t0 + dt) state rk c nt se hrk
  exact ⟨fun hc => h.1 ⟨hc.1, hc.2⟩, fun hc => h.2 fun hc2 => hc ⟨hc2.1, hc2.2⟩⟩

/-- Witness for `exact_output_fires_iff_half_open` at concrete inputs. -/
theorem exact_output_fires_iff_half_open_witness :
    (((0 : ℚ) < 1 ∧ (1 : ℚ) ≤ 0 + 2) →
      handle_exact_output (σ := ℚ) ⟨1, 0, SchedulingPolicy.exact⟩ 0 (0 + 2) 0
          (fun s d => Except.ok (s + d)) 0 1 = Except.ok (1, 2, some 1)) ∧
    (¬ ((0 : ℚ) < 1 ∧ (1 : ℚ) ≤ 0 + 2) →
      handle_exact_output (σ := ℚ) ⟨1, 0, SchedulingPolicy.exact⟩ 0 (0 + 2) 0
          (fun s d => Except.ok (s + d)) 0 1 = Except.ok (0, 1, none)) := by
  have h := exact_output_fires_iff_half_open ⟨1, 0, SchedulingPolicy.exact⟩ rfl rfl 0 2
    (0 : ℚ) (fun s d => Except.ok (s + d)) 0 1 1 (by norm_num)
  refine ⟨fun hc => ?_, h.2⟩
  rw [h.1 hc]
  norm_num

-- ===========================================================================
-- C9: message-formatter time-kind probe (corrected: capped at kind 10)
-- ===========================================================================

/-- C9 counterexample: a physics supporting auxiliary kinds `1..11` — kind 11
is supported, yet the scan (which stops at kind 10) never prints it. -/
theorem probe_kind_cap_counterexample :
    gtElevenKinds 11 = Except.ok 11 ∧
    ¬ ((11 : ℤ) ∈ (probe_time_kinds gtElevenKinds).map Prod.fst) := by
  constructor
  · rfl
  · intro h
    simp only [probe_time_kinds, probeGo, gtElevenKinds] at h
    norm_num at h

/-- A kind appears in the probe's output iff it lies in `1..start+n-1`
relative to the scan window and every kind from the window start up to it is
supported. -/
theorem probeGo_mem_iff (gt : ℤ → Except Unit ℚ) :
    ∀ (n : ℕ) (start k : ℤ),
      (k ∈ (probeGo gt start n).map Prod.fst ↔
        (start ≤ k ∧ k < start + n ∧ ∀ j, start ≤ j → j ≤ k → ∃ t, gt j = Except.ok t)) := by
  intro n
  induction n with
  | zero =>
    intro start k
    simp only [probeGo, List.map_nil, List.not_mem_nil, false_iff, not_and]
    intro h1 h2
    push_cast at h2
    omega
  | succ n ih =>
    intro start k
    cases hg : gt start with
    | error e =>
      simp only [probeGo, hg, List.map_nil, List.not_mem_nil, false_iff, not_and]
      intro h1 h2 h3
      obtain ⟨t, ht⟩ := h3 start le_rfl h1
      rw [hg] at ht
      exact Except.noConfusion ht
    | ok t =>
      simp only [probeGo, hg, List.map_cons, List.mem_cons, ih]
      constructor
      · rintro (rfl | ⟨h1, h2, h3⟩)
        · refine ⟨le_rfl, by push_cast; omega, fun j hj1 hj2 => ?_⟩
          have : j = k := le_antisymm hj2 hj1
          subst this
          exact ⟨t, hg⟩
        · refine ⟨by omega, by push_cast at h2 ⊢; omega, fun j hj1 hj2 => ?_⟩
          by_cases hjs : j = start
          · subst hjs; exact ⟨t, hg⟩
          · exact h3 j (by omega) hj2
      · rintro ⟨h1, h2, h3⟩
        by_cases hk : k = start
        · exact Or.inl hk
        · refine Or.inr ⟨by omega, by push_cast at h2 ⊢; omega, fun j hj1 hj2 => h3 j (by omega) hj2⟩

/-- Unfolding of `run` on a fresh driver state (`iteration = 0`) with
parseable policies and valid channel configurations: the channels'
`next_time`s are reset to their intervals, the checkpoint, products and
timeseries callbacks fire once with the initial state (the message callback
does not), and the loop starts from `run_loop_entry`. -/
theorem run_fresh_eq {σ : Type} (P : PhysicsModel σ) (cfg : DriverConfig)
    (fuel : ℕ) (ds0 : DriverState) (pm pc pp pt : SchedulingPolicy)
    (hpm : parse_scheduling_policy cfg.message_scheduling = Except.ok pm)
    (hpc : parse_scheduling_policy cfg.checkpoint_scheduling = Except.ok pc)
    (hpp : parse_scheduling_policy cfg.products_scheduling = Except.ok pp)
    (hpt : parse_scheduling_policy cfg.timeseries_scheduling = Except.ok pt)
    (hvm : ¬ (pm = SchedulingPolicy.exact ∧ cfg.message_interval_kind ≠ 0))
    (hvc : ¬ (pc = SchedulingPolicy.exact ∧ cfg.checkpoint_interval_kind ≠ 0))
    (hvp : ¬ (pp = SchedulingPolicy.exact ∧ cfg.products_interval_kind ≠ 0))
    (hvt : ¬ (pt = SchedulingPolicy.exact ∧ cfg.timeseries_interval_kind ≠ 0))
    (hit : ds0.iteration = 0) :
    run P cfg fuel ds0 =
      ([OutputEvent.checkpoint P.initial_state, OutputEvent.products P.initial_state,
        OutputEvent.timeseries P.initial_state] ++
          (runLoop P cfg (rk_step_fn P cfg.rk_order)
            ⟨cfg.message_interval, cfg.message_interval_kind, pm⟩
            ⟨cfg.checkpoint_interval, cfg.checkpoint_interval_kind, pc⟩
            ⟨cfg.products_interval, cfg.products_interval_kind, pp⟩
            ⟨cfg.timeseries_interval, cfg.timeseries_interval_kind, pt⟩
            fuel P.initial_state (run_loop_entry P cfg ds0)).1,
        (runLoop P cfg (rk_step_fn P cfg.rk_order)
          ⟨cfg.message_interval, cfg.message_interval_kind, pm⟩
          ⟨cfg.checkpoint_interval, cfg.checkpoint_interval_kind, pc⟩
          ⟨cfg.products_interval, cfg.products_interval_kind, pp⟩
          ⟨cfg.timeseries_interval, cfg.timeseries_interval_kind, pt⟩
          fuel P.initial_state (run_loop_entry P cfg ds0)).2) := by
  simp only [run, hpm, hpc, hpp, hpt, scheduled_output_validate, hvm, hvc, hvp, hvt,
    if_false, hit, if_true, run_loop_entry, reduceIte]

/-- Unfolding of `run` on a restored driver state (`iteration ≠ 0`) with
parseable policies and valid channel configurations: no `next_time` is
touched and no initial callback fires; the loop starts from `ds0` itself. -/
theorem run_restored_eq {σ : Type} (P : PhysicsModel σ) (cfg : DriverConfig)
    (fuel : ℕ) (ds0 : DriverState) (pm pc pp pt : SchedulingPolicy)
    (hpm : parse_scheduling_policy cfg.message_scheduling = Except.ok pm)
    (hpc : parse_scheduling_policy cfg.checkpoint_scheduling = Except.ok pc)
    (hpp : parse_scheduling_policy cfg.products_scheduling = Except.ok pp)
    (hpt : parse_scheduling_policy cfg.timeseries_scheduling = Except.ok pt)
    (hvm : ¬ (pm = SchedulingPolicy.exact ∧ cfg.message_interval_kind ≠ 0))
    (hvc : ¬ (pc = SchedulingPolicy.exact ∧ cfg.checkpoint_interval_kind ≠ 0))
    (hvp : ¬ (pp = SchedulingPolicy.exact ∧ cfg.products_interval_kind ≠ 0))
    (hvt : ¬ (pt = SchedulingPolicy.exact ∧ cfg.timeseries_interval_kind ≠ 0))
    (hit : ¬ ds0.iteration = 0) :
    run P cfg fuel ds0 =
      ((runLoop P cfg (rk_step_fn P cfg.rk_order)
          ⟨cfg.message_interval, cfg.message_interval_kind, pm⟩
          ⟨cfg.checkpoint_interval, cfg.checkpoint_interval_kind, pc⟩
          ⟨cfg.products_interval, cfg.products_interval_kind, pp⟩
          ⟨cfg.timeseries_interval, cfg.timeseries_interval_kind, pt⟩
          fuel P.initial_state ds0).1,
        (runLoop P cfg (rk_step_fn P cfg.rk_order)
          ⟨cfg.message_interval, cfg.message_interval_kind, pm⟩
          ⟨cfg.checkpoint_interval, cfg.checkpoint_interval_kind, pc⟩
          ⟨cfg.products_interval, cfg.products_interval_kind, pp⟩
          ⟨cfg.timeseries_interval, cfg.timeseries_interval_kind, pt⟩
          fuel P.initial_state ds0).2) := by
  simp only [run, hpm, hpc, hpp, hpt, scheduled_output_validate, hvm, hvc, hvp, hvt,
    if_false, hit, if_true, reduceIte]
  simp

-- ===========================================================================
-- C2: exact policy with non-zero time kind is fatal before any output
-- ===========================================================================

/-- C2: if any of the four channels parses to the exact policy with a
non-zero `interval_kind`, `run` returns the fatal configuration error and an
empty output trace: no callback (in particular none of the unconditional
`t=0` checkpoint/products/timeseries outputs) ever fires, and no stepping
occurs. -/
theorem exact_nonzero_kind_fatal_before_output {σ : Type} (P : PhysicsModel σ)
    (cfg : DriverConfig) (fuel : ℕ) (ds0 : DriverState)
    (pm pc pp pt : SchedulingPolicy)
    (hpm : parse_scheduling_policy cfg.message_scheduling = Except.ok pm)
    (hpc : parse_scheduling_policy cfg.checkpoint_scheduling = Except.ok pc)
    (hpp : parse_scheduling_policy cfg.products_scheduling = Except.ok pp)
    (hpt : parse_scheduling_policy cfg.timeseries_scheduling = Except.ok pt)
    (hx : (pm = SchedulingPolicy.exact ∧ cfg.message_interval_kind ≠ 0) ∨
          (pc = SchedulingPolicy.exact ∧ cfg.checkpoint_interval_kind ≠ 0) ∨
          (pp = SchedulingPolicy.exact ∧ cfg.products_interval_kind ≠ 0) ∨
          (pt = SchedulingPolicy.exact ∧ cfg.timeseries_interval_kind ≠ 0)) :
    run P cfg fuel ds0 =
      ([], Except.error "exact scheduling requires interval_kind = 0") := by
  by_cases h1 : pm = SchedulingPolicy.exact ∧ cfg.message_interval_kind ≠ 0
  · simp [run, hpm, hpc, hpp, hpt, scheduled_output_validate, h1]
  · by_cases h2 : pc = SchedulingPolicy.exact ∧ cfg.checkpoint_interval_kind ≠ 0
    · simp [run, hpm, hpc, hpp, hpt, scheduled_output_validate, h1, h2]
    · by_cases h3 : pp = SchedulingPolicy.exact ∧ cfg.products_interval_kind ≠ 0
      · simp [run, hpm, hpc, hpp, hpt, scheduled_output_validate, h1, h2, h3]
      · by_cases h4 : pt = SchedulingPolicy.exact ∧ cfg.timeseries_interval_kind ≠ 0
        · simp [run, hpm, hpc, hpp, hpt, scheduled_output_validate, h1, h2, h3, h4]
        · rcases hx with hx | hx | hx | hx <;>
            [exact absurd hx h1; exact absurd hx h2; exact absurd hx h3; exact absurd hx h4]

/-- Witness for `exact_nonzero_kind_fatal_before_output`: `cfgExactBadKind`
has an exact message channel on time kind 1. -/
theorem exact_nonzero_kind_fatal_before_output_witness :
    run toyPhysics cfgExactBadKind 3 freshDriverState =
      ([], Except.error "exact scheduling requires interval_kind = 0") :=
  exact_nonzero_kind_fatal_before_output toyPhysics cfgExactBadKind 3 freshDriverState
    SchedulingPolicy.exact SchedulingPolicy.nearest SchedulingPolicy.nearest
    SchedulingPolicy.nearest rfl rfl rfl rfl (Or.inl ⟨rfl, by decide⟩)

-- ===========================================================================
-- C3: fresh-run initialization and t=0 seeding; restored runs skip both
-- ===========================================================================

/-- C3: on a fresh run (`iteration = 0`, valid configuration) `run` resets
every channel's `next_time` to its interval and fires the checkpoint,
products and timeseries callbacks — not the message callback — exactly once
at `t=0` with the initial state, before the loop; on a restored run
(`iteration > 0`) it does neither. -/
theorem fresh_run_seeds_outputs {σ : Type} (P : PhysicsModel σ) (cfg : DriverConfig)
    (fuel : ℕ) (ds0 : DriverState) (pm pc pp pt : SchedulingPolicy)
    (hpm : parse_scheduling_policy cfg.message_scheduling = Except.ok pm)
    (hpc : parse_scheduling_policy cfg.checkpoint_scheduling = Except.ok pc)
    (hpp : parse_scheduling_policy cfg.products_scheduling = Except.ok pp)
    (hpt : parse_scheduling_policy cfg.timeseries_scheduling = Except.ok pt)
    (hvm : ¬ (pm = SchedulingPolicy.exact ∧ cfg.message_interval_kind ≠ 0))
    (hvc : ¬ (pc = SchedulingPolicy.exact ∧ cfg.checkpoint_interval_kind ≠ 0))
    (hvp : ¬ (pp = SchedulingPolicy.exact ∧ cfg.products_interval_kind ≠ 0))
    (hvt : ¬ (pt = SchedulingPolicy.exact ∧ cfg.timeseries_interval_kind ≠ 0)) :
    (ds0.iteration = 0 →
      run P cfg fuel ds0 =
        ([OutputEvent.checkpoint P.initial_state, OutputEvent.products P.initial_state,
          OutputEvent.timeseries P.initial_state] ++
            (runLoop P cfg (rk_step_fn P cfg.rk_order)
              ⟨cfg.message_interval, cfg.message_interval_kind, pm⟩
              ⟨cfg.checkpoint_interval, cfg.checkpoint_interval_kind, pc⟩
              ⟨cfg.products_interval, cfg.products_interval_kind, pp⟩
              ⟨cfg.timeseries_interval, cfg.timeseries_interval_kind, pt⟩
              fuel P.initial_state (run_loop_entry P cfg ds0)).1,
          (runLoop P cfg (rk_step_fn P cfg.rk_order)
            ⟨cfg.message_interval, cfg.message_interval_kind, pm⟩
            ⟨cfg.checkpoint_interval, cfg.checkpoint_interval_kind, pc⟩
            ⟨cfg.products_interval, cfg.products_interval_kind, pp⟩
            ⟨cfg.timeseries_interval, cfg.timeseries_interval_kind, pt⟩
            fuel P.initial_state (run_loop_entry P cfg ds0)).2)) ∧
    (0 < ds0.iteration →
      run P cfg fuel ds0 =
        ((runLoop P cfg (rk_step_fn P cfg.rk_order)
            ⟨cfg.message_interval, cfg.message_interval_kind, pm⟩
            ⟨cfg.checkpoint_interval, cfg.checkpoint_interval_kind, pc⟩
            ⟨cfg.products_interval, cfg.products_interval_kind, pp⟩
            ⟨cfg.timeseries_interval, cfg.timeseries_interval_kind, pt⟩
            fuel P.initial_state ds0).1,
          (runLoop P cfg (rk_step_fn P cfg.rk_order)
            ⟨cfg.message_interval, cfg.message_interval_kind, pm⟩
            ⟨cfg.checkpoint_interval, cfg.checkpoint_interval_kind, pc⟩
            ⟨cfg.products_interval, cfg.products_interval_kind, pp⟩
            ⟨cfg.timeseries_interval, cfg.timeseries_interval_kind, pt⟩
            fuel P.initial_state ds0).2)) :=
  ⟨fun hit => run_fresh_eq P cfg fuel ds0 pm pc pp pt hpm hpc hpp hpt hvm hvc hvp hvt hit,
   fun hit => run_restored_eq P cfg fuel ds0 pm pc pp pt hpm hpc hpp hpt hvm hvc hvp hvt
     (by omega)⟩

/-- Witness for `fresh_run_seeds_outputs` at the toy physics and `cfgC5`. -/
theorem fresh_run_seeds_outputs_witness :
    (freshDriverState.iteration = 0 →
      run toyPhysics cfgC5 2 freshDriverState =
        ([OutputEvent.checkpoint toyPhysics.initial_state,
          OutputEvent.products toyPhysics.initial_state,
          OutputEvent.timeseries toyPhysics.initial_state] ++
            (runLoop toyPhysics cfgC5 (rk_step_fn toyPhysics cfgC5.rk_order)
              ⟨cfgC5.message_interval, cfgC5.message_interval_kind, SchedulingPolicy.nearest⟩
              ⟨cfgC5.checkpoint_interval, cfgC5.checkpoint_interval_kind, SchedulingPolicy.nearest⟩
              ⟨cfgC5.products_interval, cfgC5.products_interval_kind, SchedulingPolicy.nearest⟩
              ⟨cfgC5.timeseries_interval, cfgC5.timeseries_interval_kind, SchedulingPolicy.nearest⟩
              2 toyPhysics.initial_state (run_loop_entry toyPhysics cfgC5 freshDriverState)).1,
          (runLoop toyPhysics cfgC5 (rk_step_fn toyPhysics cfgC5.rk_order)
            ⟨cfgC5.message_interval, cfgC5.message_interval_kind, SchedulingPolicy.nearest⟩
            ⟨cfgC5.checkpoint_interval, cfgC5.checkpoint_interval_kind, SchedulingPolicy.nearest⟩
            ⟨cfgC5.products_interval, cfgC5.products_interval_kind, SchedulingPolicy.nearest⟩
            ⟨cfgC5.timeseries_interval, cfgC5.timeseries_interval_kind, SchedulingPolicy.nearest⟩
            2 toyPhysics.initial_state (run_loop_entry toyPhysics cfgC5 freshDriverState)).2)) ∧
    (0 < freshDriverState.iteration →
      run toyPhysics cfgC5 2 freshDriverState =
        ((runLoop toyPhysics cfgC5 (rk_step_fn toyPhysics cfgC5.rk_order)
            ⟨cfgC5.message_interval, cfgC5.message_interval_kind, SchedulingPolicy.nearest⟩
            ⟨cfgC5.checkpoint_interval, cfgC5.checkpoint_interval_kind, SchedulingPolicy.nearest⟩
            ⟨cfgC5.products_interval, cfgC5.products_interval_kind, SchedulingPolicy.nearest⟩
            ⟨cfgC5.timeseries_interval, cfgC5.timeseries_interval_kind, SchedulingPolicy.nearest⟩
            2 toyPhysics.initial_state freshDriverState).1,
          (runLoop toyPhysics cfgC5 (rk_step_fn toyPhysics cfgC5.rk_order)
            ⟨cfgC5.message_interval, cfgC5.message_interval_kind, SchedulingPolicy.nearest⟩
            ⟨cfgC5.checkpoint_interval, cfgC5.checkpoint_interval_kind, SchedulingPolicy.nearest⟩
            ⟨cfgC5.products_interval, cfgC5.products_interval_kind, SchedulingPolicy.nearest⟩
            ⟨cfgC5.timeseries_interval, cfgC5.timeseries_interval_kind, SchedulingPolicy.nearest⟩
            2 toyPhysics.initial_state freshDriverState).2)) :=
  fresh_run_seeds_outputs toyPhysics cfgC5 2 freshDriverState
    SchedulingPolicy.nearest SchedulingPolicy.nearest SchedulingPolicy.nearest
    SchedulingPolicy.nearest rfl rfl rfl rfl (by decide) (by decide) (by decide) (by decide)

/-- Exact-policy evaluation never touches a nearest-policy channel. -/
theorem handle_exact_nearest_skip {σ : Type} (o : ScheduledOutput)
    (hpol : o.policy = SchedulingPolicy.nearest) (t0 t1 : ℚ) (state : σ)
    (rk : σ → ℚ → Except String σ) (c : ℤ) (nt : ℚ) :
    handle_exact_output o t0 t1 state rk c nt = Except.ok (c, nt, none) := by
  unfold handle_exact_output
  rw [if_neg]
  rintro ⟨he, -⟩
  rw [hpol] at he
  exact SchedulingPolicy.noConfusion he

/-- Nearest-policy evaluation preserves the `next_time = interval*(count+1)`
relation. -/
theorem handle_nearest_next_time_eq {σ : Type} (o : ScheduledOutput) (s : σ)
    (gt : σ → ℤ → ℚ) (c : ℤ) (nt : ℚ)
    (h : nt = o.interval * ((c : ℚ) + 1)) :
    (handle_nearest_output o s gt c nt).2.1 =
      o.interval * (((handle_nearest_output o s gt c nt).1 : ℚ) + 1) := by
  unfold handle_nearest_output
  split_ifs with h1 h2
  · simp only
    rw [h]
    push_cast
    ring
  · exact h
  · exact h

/-- One loop iteration preserves the four channels' schedule invariants. -/
theorem stepOnce_preserves_inv {σ : Type} (P : PhysicsModel σ) (cfg : DriverConfig)
    (rk : σ → ℚ → Except String σ) (mo co po tso : ScheduledOutput) (state : σ)
    (ds : DriverState) (evs : List (OutputEvent σ)) (s2 : σ) (ds2 : DriverState)
    (h : stepOnce P cfg rk mo co po tso state ds = (evs, Except.ok (s2, ds2)))
    (hinv : loop_nearest_inv mo co po tso ds) :
    loop_nearest_inv mo co po tso ds2 := by
  obtain ⟨him, hic, hip, hit⟩ := hinv
  simp only [stepOnce] at h
  split at h
  · exact absurd h (by simp)
  next mc mnt mf heqm =>
  split at h
  · exact absurd h (by simp)
  next cc cnt cf heqc =>
  split at h
  · exact absurd h (by simp)
  next pc pnt pf heqp =>
  split at h
  · exact absurd h (by simp)
  next tc tnt tf heqt =>
  split at h
  · exact absurd h (by simp)
  next state2 heqrk =>
  simp only [Prod.mk.injEq, Except.ok.injEq] at h
  obtain ⟨-, -, hds⟩ := h
  subst hds
  refine ⟨?_, ?_, ?_, ?_⟩
  · intro hpol
    rw [handle_exact_nearest_skip mo hpol] at heqm
    simp only [Except.ok.injEq, Prod.mk.injEq] at heqm
    obtain ⟨h1, h2, -⟩ := heqm
    subst h1
    subst h2
    exact handle_nearest_next_time_eq mo state2 P.get_time ds.message_count
      ds.next_message_time (him hpol)
  · intro hpol
    rw [handle_exact_nearest_skip co hpol] at heqc
    simp only [Except.ok.injEq, Prod.mk.injEq] at heqc
    obtain ⟨h1, h2, -⟩ := heqc
    subst h1
    subst h2
    exact handle_nearest_next_time_eq co state2 P.get_time ds.checkpoint_count
      ds.next_checkpoint_time (hic hpol)
  · intro hpol
    rw [handle_exact_nearest_skip po hpol] at heqp
    simp only [Except.ok.injEq, Prod.mk.injEq] at heqp
    obtain ⟨h1, h2, -⟩ := heqp
    subst h1
    subst h2
    exact handle_nearest_next_time_eq po state2 P.get_time ds.products_count
      ds.next_products_time (hip hpol)
  · intro hpol
    rw [handle_exact_nearest_skip tso hpol] at heqt
    simp only [Except.ok.injEq, Prod.mk.injEq] at heqt
    obtain ⟨h1, h2, -⟩ := heqt
    subst h1
    subst h2
    exact handle_nearest_next_time_eq tso state2 P.get_time ds.timeseries_count
      ds.next_timeseries_time (hit hpol)

/-- The main loop preserves the four channels' schedule invariants up to its
(successful) termination. -/
theorem runLoop_preserves_inv {σ : Type} (P : PhysicsModel σ) (cfg : DriverConfig)
    (rk : σ → ℚ → Except String σ) (mo co po tso : ScheduledOutput) :
    ∀ (fuel : ℕ) (state : σ) (ds : DriverState) (evs : List (OutputEvent σ))
      (sf : σ) (dsf : DriverState),
      runLoop P cfg rk mo co po tso fuel state ds = (evs, Except.ok (some (sf, dsf))) →
      loop_nearest_inv mo co po tso ds → loop_nearest_inv mo co po tso dsf := by
  intro fuel
  induction fuel with
  | zero =>
    intro state ds evs sf dsf h hinv
    exact absurd h (by simp [runLoop])
  | succ n ih =>
    intro state ds evs sf dsf h hinv
    rw [runLoop] at h
    split_ifs at h with h1 h2
    · simp only [Prod.mk.injEq, Except.ok.injEq, Option.some.injEq] at h
      obtain ⟨-, -, hds⟩ := h
      subst hds
      exact hinv
    · simp only [Prod.mk.injEq, Except.ok.injEq, Option.some.injEq] at h
      obtain ⟨-, -, hds⟩ := h
      subst hds
      exact hinv
    · split at h
      · exact absurd h (by simp)
      next evs0 state2 ds2 heqs =>
      simp only [Prod.mk.injEq] at h
      obtain ⟨-, hres⟩ := h
      have hrec : runLoop P cfg rk mo co po tso n state2 ds2 =
          ((runLoop P cfg rk mo co po tso n state2 ds2).1,
            Except.ok (some (sf, dsf))) := by
        rw [← hres]
      exact ih state2 ds2 _ sf dsf hrec
        (stepOnce_preserves_inv P cfg rk mo co po tso state ds evs0 state2 ds2 heqs hinv)

/-- `"nearest"` parses to the nearest policy. -/
theorem parse_nearest :
    parse_scheduling_policy "nearest" = Except.ok SchedulingPolicy.nearest := rfl

/-- `"exact"` parses to the exact policy. -/
theorem parse_exact :
    parse_scheduling_policy "exact" = Except.ok SchedulingPolicy.exact := rfl

/-- The two scheduling policies are distinct. -/
theorem nearest_ne_exact : ¬ (SchedulingPolicy.nearest = SchedulingPolicy.exact) :=
  fun h => SchedulingPolicy.noConfusion h

/-- Concrete evaluation of a fresh two-iteration `run` over the toy physics:
one unit-sized step crosses nine checkpoint intervals at once, the checkpoint
channel fires once, and the loop then terminates at `t0 = 1`. -/
theorem run_toyC5_eval :
    run toyPhysics cfgC5 2 freshDriverState =
      ([OutputEvent.checkpoint 0, OutputEvent.products 0, OutputEvent.timeseries 0,
        OutputEvent.checkpoint 1], Except.ok (some ((1 : ℚ), c5ds))) := by
  norm_num [run, runLoop, stepOnce, parse_nearest, scheduled_output_validate,
    toyPhysics, cfgC5, freshDriverState, c5ds, handle_exact_output, handle_nearest_output,
    rk_step_fn, rk1_step, optEvent, nearest_ne_exact,
    accumulate_timeseries_sample, addSample]

-- ===========================================================================
-- C5: post-loop next_time of a nearest channel (corrected: the "greater than
-- the final t0" half fails under overshoot; the interval-multiple half holds)
-- ===========================================================================

/-- C5 counterexample: in the fresh toy run one step of size 1 overshoots the
checkpoint channel's interval `1/10` nine-fold; the channel fires once, so
its post-loop `next_time` is `2/10 = 1/5`, which is *not* strictly greater
than the final `t0 = 1` the loop observed. -/
theorem nearest_next_time_lags_counterexample :
    run toyPhysics cfgC5 2 freshDriverState =
      ([OutputEvent.checkpoint 0, OutputEvent.products 0, OutputEvent.timeseries 0,
        OutputEvent.checkpoint 1], Except.ok (some ((1 : ℚ), c5ds))) ∧
    toyPhysics.get_time 1 0 = 1 ∧
    c5ds.next_checkpoint_time = 1 / 5 ∧
    ¬ (c5ds.next_checkpoint_time > toyPhysics.get_time 1 0) := by
  refine ⟨run_toyC5_eval, rfl, rfl, ?_⟩
  norm_num [c5ds, toyPhysics]

/-- C5 amended: for every channel configured with the nearest policy (and
time kind 0) in a fresh run, when the loop terminates the channel's
`next_time` equals `interval * (count + 1)` — the smallest interval multiple
exceeding the number of firings.  (The claim's other half, `next_time >`
the final `t0`, fails under overshoot: see the counterexample.) -/
theorem nearest_next_time_interval_multiple {σ : Type} (P : PhysicsModel σ)
    (cfg : DriverConfig) (fuel : ℕ) (pm pc pp pt : SchedulingPolicy)
    (hpm : parse_scheduling_policy cfg.message_scheduling = Except.ok pm)
    (hpc : parse_scheduling_policy cfg.checkpoint_scheduling = Except.ok pc)
    (hpp : parse_scheduling_policy cfg.products_scheduling = Except.ok pp)
    (hpt : parse_scheduling_policy cfg.timeseries_scheduling = Except.ok pt)
    (hvm : ¬ (pm = SchedulingPolicy.exact ∧ cfg.message_interval_kind ≠ 0))
    (hvc : ¬ (pc = SchedulingPolicy.exact ∧ cfg.checkpoint_interval_kind ≠ 0))
    (hvp : ¬ (pp = SchedulingPolicy.exact ∧ cfg.products_interval_kind ≠ 0))
    (hvt : ¬ (pt = SchedulingPolicy.exact ∧ cfg.timeseries_interval_kind ≠ 0))
    (evs : List (OutputEvent σ)) (sf : σ) (dsf : DriverState)
    (hrun : run P cfg fuel freshDriverState = (evs, Except.ok (some (sf, dsf)))) :
    (pm = SchedulingPolicy.nearest → cfg.message_interval_kind = 0 →
      dsf.next_message_time = cfg.message_interval * ((dsf.message_count : ℚ) + 1)) ∧
    (pc = SchedulingPolicy.nearest → cfg.checkpoint_interval_kind = 0 →
      dsf.next_checkpoint_time = cfg.checkpoint_interval * ((dsf.checkpoint_count : ℚ) + 1)) ∧
    (pp = SchedulingPolicy.nearest → cfg.products_interval_kind = 0 →
      dsf.next_products_time = cfg.products_interval * ((dsf.products_count : ℚ) + 1)) ∧
    (pt = SchedulingPolicy.nearest → cfg.timeseries_interval_kind = 0 →
      dsf.next_timeseries_time = cfg.timeseries_interval * ((dsf.timeseries_count : ℚ) + 1)) := by
  rw [run_fresh_eq P cfg fuel freshDriverState pm pc pp pt hpm hpc hpp hpt hvm hvc hvp hvt
    rfl] at hrun
  simp only [Prod.mk.injEq] at hrun
  obtain ⟨-, hres⟩ := hrun
  have hloop : runLoop P cfg (rk_step_fn P cfg.rk_order)
      ⟨cfg.message_interval, cfg.message_interval_kind, pm⟩
      ⟨cfg.checkpoint_interval, cfg.checkpoint_interval_kind, pc⟩
      ⟨cfg.products_interval, cfg.products_interval_kind, pp⟩
      ⟨cfg.timeseries_interval, cfg.timeseries_interval_kind, pt⟩
      fuel P.initial_state (run_loop_entry P cfg freshDriverState) =
      ((runLoop P cfg (rk_step_fn P cfg.rk_order)
        ⟨cfg.message_interval, cfg.message_interval_kind, pm⟩
        ⟨cfg.checkpoint_interval, cfg.checkpoint_interval_kind, pc⟩
        ⟨cfg.products_interval, cfg.products_interval_kind, pp⟩
        ⟨cfg.timeseries_interval, cfg.timeseries_interval_kind, pt⟩
        fuel P.initial_state (run_loop_entry P cfg freshDriverState)).1,
        Except.ok (some (sf, dsf))) := by
    rw [← hres]
  have hinv0 : loop_nearest_inv
      ⟨cfg.message_interval, cfg.message_interval_kind, pm⟩
      ⟨cfg.checkpoint_interval, cfg.checkpoint_interval_kind, pc⟩
      ⟨cfg.products_interval, cfg.products_interval_kind, pp⟩
      ⟨cfg.timeseries_interval, cfg.timeseries_interval_kind, pt⟩
      (run_loop_entry P cfg freshDriverState) := by
    refine ⟨?_, ?_, ?_, ?_⟩ <;> intro hpol <;>
      simp [run_loop_entry, freshDriverState, nearestInv]
  have hfinal := runLoop_preserves_inv P cfg (rk_step_fn P cfg.rk_order)
    ⟨cfg.message_interval, cfg.message_interval_kind, pm⟩
    ⟨cfg.checkpoint_interval, cfg.checkpoint_interval_kind, pc⟩
    ⟨cfg.products_interval, cfg.products_interval_kind, pp⟩
    ⟨cfg.timeseries_interval, cfg.timeseries_interval_kind, pt⟩
    fuel P.initial_state (run_loop_entry P cfg freshDriverState) _ sf dsf hloop hinv0
  obtain ⟨i1, i2, i3, i4⟩ := hfinal
  exact ⟨fun hp _ => i1 hp, fun hp _ => i2 hp, fun hp _ => i3 hp, fun hp _ => i4 hp⟩

/-- Witness for `nearest_next_time_interval_multiple` at the toy run. -/
theorem nearest_next_time_interval_multiple_witness :
    (SchedulingPolicy.nearest = SchedulingPolicy.nearest → cfgC5.message_interval_kind = 0 →
      c5ds.next_message_time = cfgC5.message_interval * ((c5ds.message_count : ℚ) + 1)) ∧
    (SchedulingPolicy.nearest = SchedulingPolicy.nearest → cfgC5.checkpoint_interval_kind = 0 →
      c5ds.next_checkpoint_time = cfgC5.checkpoint_interval * ((c5ds.checkpoint_count : ℚ) + 1)) ∧
    (SchedulingPolicy.nearest = SchedulingPolicy.nearest → cfgC5.products_interval_kind = 0 →
      c5ds.next_products_time = cfgC5.products_interval * ((c5ds.products_count : ℚ) + 1)) ∧
    (SchedulingPolicy.nearest = SchedulingPolicy.nearest → cfgC5.timeseries_interval_kind = 0 →
      c5ds.next_timeseries_time = cfgC5.timeseries_interval * ((c5ds.timeseries_count : ℚ) + 1)) :=
  nearest_next_time_interval_multiple toyPhysics cfgC5 2
    SchedulingPolicy.nearest SchedulingPolicy.nearest SchedulingPolicy.nearest
    SchedulingPolicy.nearest rfl rfl rfl rfl
    (by simp [nearest_ne_exact]) (by simp [nearest_ne_exact])
    (by simp [nearest_ne_exact]) (by simp [nearest_ne_exact])
    [OutputEvent.checkpoint 0, OutputEvent.products 0, OutputEvent.timeseries 0,
      OutputEvent.checkpoint 1] 1 c5ds run_toyC5_eval

-- ===========================================================================
-- C7: invalid integrator order (corrected: the error is raised lazily, at the
-- first rk_step invocation inside the first executed loop iteration)
-- ===========================================================================

/-- `rk_step_fn` at an unsupported order returns the fatal error. -/
theorem rk_step_fn_invalid {σ : Type} (P : PhysicsModel σ) (order : ℤ)
    (h1 : order ≠ 1) (h2 : order ≠ 2) (h3 : order ≠ 3) (s : σ) (dt : ℚ) :
    rk_step_fn P order s dt = Except.error "rk_order must be 1, 2, or 3" := by
  simp [rk_step_fn, h1, h2, h3]

/-- With an always-failing `rk`, an exact evaluation either skips the channel
or surfaces the failure. -/
theorem handle_exact_output_rk_error {σ : Type} (o : ScheduledOutput) (t0 t1 : ℚ)
    (state : σ) (m : String) (rk : σ → ℚ → Except String σ)
    (hrk : ∀ s d, rk s d = Except.error m) (c : ℤ) (nt : ℚ) :
    handle_exact_output o t0 t1 state rk c nt = Except.ok (c, nt, none) ∨
    handle_exact_output o t0 t1 state rk c nt = Except.error m := by
  unfold handle_exact_output
  split_ifs with h1 h2
  · right
    rw [hrk]
    rfl
  · left
    rfl
  · left
    rfl

/-- With an always-failing `rk`, the loop body always surfaces that error:
either some exact channel fires and the interpolation fails, or the real
advance fails — in both cases before any state is produced. -/
theorem stepOnce_rk_error {σ : Type} (P : PhysicsModel σ) (cfg : DriverConfig)
    (m : String) (rk : σ → ℚ → Except String σ)
    (hrk : ∀ s d, rk s d = Except.error m) (mo co po tso : ScheduledOutput)
    (state : σ) (ds : DriverState) :
    (stepOnce P cfg rk mo co po tso state ds).2 = Except.error m := by
  simp only [stepOnce]
  rcases handle_exact_output_rk_error mo (P.get_time state 0)
      (P.get_time state 0 + cfg.cfl * P.courant_time state) state m rk hrk
      ds.message_count ds.next_message_time with h1 | h1 <;> simp only [h1]
  · rcases handle_exact_output_rk_error co (P.get_time state 0)
        (P.get_time state 0 + cfg.cfl * P.courant_time state) state m rk hrk
        ds.checkpoint_count ds.next_checkpoint_time with h2 | h2 <;> simp only [h2]
    · rcases handle_exact_output_rk_error po (P.get_time state 0)
          (P.get_time state 0 + cfg.cfl * P.courant_time state) state m rk hrk
          ds.products_count ds.next_products_time with h3 | h3 <;> simp only [h3]
      · rcases handle_exact_output_rk_error tso (P.get_time state 0)
            (P.get_time state 0 + cfg.cfl * P.courant_time state) state m rk hrk
            ds.timeseries_count ds.next_timeseries_time with h4 | h4 <;> simp only [h4]
        · rw [hrk state (cfg.cfl * P.courant_time state)]

/-- C7 amended: an integrator order other than 1, 2 or 3 is only detected at
the first `rk_step` invocation: when the loop body executes at least once
(termination conditions false at entry), `run` fails with
`"rk_order must be 1, 2, or 3"` before any state is advanced; the `t=0`
seeding outputs have already fired by then, and if the loop terminates at
entry no error is raised at all (see the counterexample). -/
theorem invalid_rk_order_errors_on_first_iteration {σ : Type} (P : PhysicsModel σ)
    (cfg : DriverConfig) (fuel : ℕ) (ds0 : DriverState)
    (pm pc pp pt : SchedulingPolicy)
    (hpm : parse_scheduling_policy cfg.message_scheduling = Except.ok pm)
    (hpc : parse_scheduling_policy cfg.checkpoint_scheduling = Except.ok pc)
    (hpp : parse_scheduling_policy cfg.products_scheduling = Except.ok pp)
    (hpt : parse_scheduling_policy cfg.timeseries_scheduling = Except.ok pt)
    (hvm : ¬ (pm = SchedulingPolicy.exact ∧ cfg.message_interval_kind ≠ 0))
    (hvc : ¬ (pc = SchedulingPolicy.exact ∧ cfg.checkpoint_interval_kind ≠ 0))
    (hvp : ¬ (pp = SchedulingPolicy.exact ∧ cfg.products_interval_kind ≠ 0))
    (hvt : ¬ (pt = SchedulingPolicy.exact ∧ cfg.timeseries_interval_kind ≠ 0))
    (ho1 : cfg.rk_order ≠ 1) (ho2 : cfg.rk_order ≠ 2) (ho3 : cfg.rk_order ≠ 3)
    (hterm : ¬ P.get_time P.initial_state 0 ≥ cfg.t_final)
    (hcap : ¬ (cfg.max_iter > 0 ∧ ds0.iteration ≥ cfg.max_iter)) :
    (run P cfg (fuel + 1) ds0).2 = Except.error "rk_order must be 1, 2, or 3" := by
  have hrk : ∀ (s : σ) (d : ℚ),
      rk_step_fn P cfg.rk_order s d = Except.error "rk_order must be 1, 2, or 3" :=
    fun s d => rk_step_fn_invalid P cfg.rk_order ho1 ho2 ho3 s d
  by_cases hit : ds0.iteration = 0
  · rw [run_fresh_eq P cfg (fuel + 1) ds0 pm pc pp pt hpm hpc hpp hpt hvm hvc hvp hvt hit]
    rw [runLoop]
    rw [if_neg hterm]
    rw [if_neg (show ¬ (cfg.max_iter > 0 ∧
        (run_loop_entry P cfg ds0).iteration ≥ cfg.max_iter) from hcap)]
    cases hs : stepOnce P cfg (rk_step_fn P cfg.rk_order)
        ⟨cfg.message_interval, cfg.message_interval_kind, pm⟩
        ⟨cfg.checkpoint_interval, cfg.checkpoint_interval_kind, pc⟩
        ⟨cfg.products_interval, cfg.products_interval_kind, pp⟩
        ⟨cfg.timeseries_interval, cfg.timeseries_interval_kind, pt⟩
        P.initial_state (run_loop_entry P cfg ds0) with
    | mk evs0 res0 =>
      have h2 : res0 = Except.error "rk_order must be 1, 2, or 3" := by
        have h3 := stepOnce_rk_error P cfg "rk_order must be 1, 2, or 3"
          (rk_step_fn P cfg.rk_order) hrk
          ⟨cfg.message_interval, cfg.message_interval_kind, pm⟩
          ⟨cfg.checkpoint_interval, cfg.checkpoint_interval_kind, pc⟩
          ⟨cfg.products_interval, cfg.products_interval_kind, pp⟩
          ⟨cfg.timeseries_interval, cfg.timeseries_interval_kind, pt⟩
          P.initial_state (run_loop_entry P cfg ds0)
        rw [hs] at h3
        exact h3
      subst h2
      rfl
  · rw [run_restored_eq P cfg (fuel + 1) ds0 pm pc pp pt hpm hpc hpp hpt hvm hvc hvp hvt hit]
    rw [runLoop]
    rw [if_neg hterm]
    rw [if_neg hcap]
    cases hs : stepOnce P cfg (rk_step_fn P cfg.rk_order)
        ⟨cfg.message_interval, cfg.message_interval_kind, pm⟩
        ⟨cfg.checkpoint_interval, cfg.checkpoint_interval_kind, pc⟩
        ⟨cfg.products_interval, cfg.products_interval_kind, pp⟩
        ⟨cfg.timeseries_interval, cfg.timeseries_interval_kind, pt⟩
        P.initial_state ds0 with
    | mk evs0 res0 =>
      have h2 : res0 = Except.error "rk_order must be 1, 2, or 3" := by
        have h3 := stepOnce_rk_error P cfg "rk_order must be 1, 2, or 3"
          (rk_step_fn P cfg.rk_order) hrk
          ⟨cfg.message_interval, cfg.message_interval_kind, pm⟩
          ⟨cfg.checkpoint_interval, cfg.checkpoint_interval_kind, pc⟩
          ⟨cfg.products_interval, cfg.products_interval_kind, pp⟩
          ⟨cfg.timeseries_interval, cfg.timeseries_interval_kind, pt⟩
          P.initial_state ds0
        rw [hs] at h3
        exact h3
      subst h2
      rfl

/-- Witness for `invalid_rk_order_errors_on_first_iteration`: `rk_order = 4`
with a loop body that does execute. -/
theorem invalid_rk_order_errors_on_first_iteration_witness :
    (run toyPhysics cfgBadOrder (0 + 1) freshDriverState).2 =
      Except.error "rk_order must be 1, 2, or 3" :=
  invalid_rk_order_errors_on_first_iteration toyPhysics cfgBadOrder 0 freshDriverState
    SchedulingPolicy.nearest SchedulingPolicy.nearest SchedulingPolicy.nearest
    SchedulingPolicy.nearest rfl rfl rfl rfl
    (by simp [nearest_ne_exact]) (by simp [nearest_ne_exact])
    (by simp [nearest_ne_exact]) (by simp [nearest_ne_exact])
    (by norm_num [cfgBadOrder, cfgC5]) (by norm_num [cfgBadOrder, cfgC5])
    (by norm_num [cfgBadOrder, cfgC5])
    (by norm_num [toyPhysics, cfgBadOrder, cfgC5])
    (by norm_num [cfgBadOrder, cfgC5, freshDriverState])

/-- C7 counterexample: with `rk_order = 5` but `t_final = 0` the loop
terminates at entry, `rk_step` is never invoked, and `run` completes without
raising any error — the invalid order is *not* detected before the loop. -/
theorem invalid_rk_order_no_error_counterexample :
    (run toyPhysics cfgBadOrderNoLoop 1 freshDriverState).2 =
      Except.ok (some ((0 : ℚ), c7ds)) ∧
    (run toyPhysics cfgBadOrderNoLoop 1 freshDriverState).2.isOk = true := by
  have h : (run toyPhysics cfgBadOrderNoLoop 1 freshDriverState).2 =
      Except.ok (some ((0 : ℚ), c7ds)) := by
    norm_num [run, runLoop, stepOnce, parse_nearest, scheduled_output_validate,
      toyPhysics, cfgBadOrderNoLoop, cfgC5, freshDriverState, c7ds,
      accumulate_timeseries_sample, addSample]
  exact ⟨h, by rw [h]; rfl⟩

/-- C9 amended: the message callback probes auxiliary kinds incrementally
from 1 up to at most kind 10; an out-of-range condition only terminates the
scan (the scan always returns a list, never propagates the condition); a kind
appears in the printed message iff it is between 1 and 10 and every kind from
1 up to it is supported.  (Supported kinds above 10 never appear.) -/
theorem probe_time_kinds_characterization (gt : ℤ → Except Unit ℚ) (k : ℤ) :
    k ∈ (probe_time_kinds gt).map Prod.fst ↔
      (1 ≤ k ∧ k ≤ 10 ∧ ∀ j, 1 ≤ j → j ≤ k → ∃ t, gt j = Except.ok t) := by
  rw [probe_time_kinds, probeGo_mem_iff]
  constructor <;> rintro ⟨h1, h2, h3⟩ <;>
    exact ⟨h1, by push_cast at h2 ⊢; omega, h3⟩

-- ===========================================================================
-- C10: ndoffset / ndindex round trips
-- ===========================================================================

/-- The `size` accumulator is bounded by the exact shape product. -/
theorem size_foldl_le (l : List ℕ) :
    ∀ a : ℕ, l.foldl (fun total s => (total * s) % 4294967296) a ≤ a * l.prod := by
  induction l with
  | nil => intro a; simp
  | cons s rest ih =>
    intro a
    calc (s :: rest).foldl (fun total s => (total * s) % 4294967296) a
        = rest.foldl (fun total s => (total * s) % 4294967296) ((a * s) % 4294967296) := rfl
      _ ≤ ((a * s) % 4294967296) * rest.prod := ih _
      _ ≤ (a * s) * rest.prod := Nat.mul_le_mul_right _ (Nat.mod_le _ _)
      _ = a * (s :: rest).prod := by rw [List.prod_cons]; ring

/-- `size` never exceeds the exact shape product. -/
theorem size_le_prod (sp : index_space_t) : size sp ≤ sp.shape.prod := by
  have h := size_foldl_le sp.shape 1
  rw [one_mul] at h
  exact h

/-- `size` stays below `2^32` whatever the accumulator starts at (below
`2^32`). -/
theorem size_foldl_lt (l : List ℕ) :
    ∀ a : ℕ, a < 4294967296 →
      l.foldl (fun total s => (total * s) % 4294967296) a < 4294967296 := by
  induction l with
  | nil => intro a ha; exact ha
  | cons s rest ih =>
    intro a ha
    exact ih _ (Nat.mod_lt _ (by norm_num))

/-- `size` is always below `2^32` (it is an `unsigned int`). -/
theorem size_lt_u32 (sp : index_space_t) : size sp < 4294967296 :=
  size_foldl_lt sp.shape 1 (by norm_num)

/-- `static_cast<int>` is the identity on values below `2^31`. -/
theorem int_of_uint_small (n : ℕ) (h : n < 2147483648) : int_of_uint n = (n : ℤ) := by
  unfold int_of_uint
  rw [Nat.mod_eq_of_lt (lt_trans h (by norm_num))]
  rw [if_pos h]

/-- The `size_t` cast is the identity on natural values below `2^64`. -/
theorem size_t_of_int_natCast (n : ℕ) (h : n < 18446744073709551616) :
    size_t_of_int (n : ℤ) = n := by
  unfold size_t_of_int
  rw [Int.emod_eq_of_lt (by positivity) (by exact_mod_cast h)]
  exact Int.toNat_natCast n

/-- The running stride of the reference (unbounded) offset loop is the
product of the shapes traversed. -/
theorem ndoffsetGoRef_stride :
    ∀ (shs : List ℕ) (sts idx : List ℤ), sts.length = shs.length →
      idx.length = shs.length →
      (ndoffsetGoRef (zip3idx idx sts shs)).2 = shs.prod := by
  intro shs
  induction shs with
  | nil =>
    intro sts idx h1 h2
    rw [List.length_nil, List.length_eq_zero] at h1 h2
    subst h1
    subst h2
    simp [zip3idx, ndoffsetGoRef]
  | cons sh rest ih =>
    intro sts idx h1 h2
    cases sts with
    | nil => simp at h1
    | cons st sts =>
      cases idx with
      | nil => simp at h2
      | cons i is =>
        simp only [List.length_cons, Nat.succ.injEq] at h1 h2
        show (ndoffsetGoRef ((i, st, sh) :: zip3idx is sts rest)).2 = (sh :: rest).prod
        simp only [ndoffsetGoRef, List.prod_cons]
        rw [ih sts is h1 h2]
        ring

/-- The digit list produced by `ndindexGo` has one entry per dimension. -/
theorem ndindexGo_length (shs : List ℕ) (off : ℕ) :
    (ndindexGo shs off).1.length = shs.length := by
  induction shs with
  | nil => simp [ndindexGo]
  | cons a b ihb => simp [ndindexGo, ihb]

/-- Decoding an offset and re-encoding the resulting index (through the
machine-faithful, wrapping `ndoffsetGo` and the `int` digit casts) yields the
offset modulo the shape product, reduced modulo `2^64`; the decode's leftover
is the quotient.  Shape components must be positive and at most `2^31` so
that every digit survives its `int` cast. -/
theorem ndindexGo_encode :
    ∀ (shs : List ℕ) (sts : List ℤ) (off : ℕ), sts.length = shs.length →
      (∀ s ∈ shs, 0 < s) → (∀ s ∈ shs, s ≤ 2147483648) →
      (ndoffsetGo (zip3idx
          (List.zipWith (fun st d => st + int_of_uint d) sts (ndindexGo shs off).1)
          sts shs)).1 = off % shs.prod % 18446744073709551616 ∧
      (ndoffsetGo (zip3idx
          (List.zipWith (fun st d => st + int_of_uint d) sts (ndindexGo shs off).1)
          sts shs)).2 = shs.prod % 18446744073709551616 ∧
      (ndindexGo shs off).2 = off / shs.prod := by
  intro shs
  induction shs with
  | nil =>
    intro sts off h1 hpos hbnd
    rw [List.length_nil, List.length_eq_zero] at h1
    subst h1
    refine ⟨by simp [zip3idx, ndoffsetGo, ndindexGo, Nat.mod_one],
      by norm_num [zip3idx, ndoffsetGo, ndindexGo],
      by simp [ndindexGo]⟩
  | cons sh rest ih =>
    intro sts off h1 hpos hbnd
    cases sts with
    | nil => simp at h1
    | cons st sts =>
      simp only [List.length_cons, Nat.succ.injEq] at h1
      obtain ⟨ihv, ihw, ihd⟩ := ih sts off h1
        (fun s hs => hpos s (List.mem_cons_of_mem sh hs))
        (fun s hs => hbnd s (List.mem_cons_of_mem sh hs))
      have hsh0 : 0 < sh := hpos sh (List.mem_cons_self sh rest)
      have hshb : sh ≤ 2147483648 := hbnd sh (List.mem_cons_self sh rest)
      have hd0lt : (ndindexGo rest off).2 % sh < sh := Nat.mod_lt _ hsh0
      have hd031 : (ndindexGo rest off).2 % sh < 2147483648 := lt_of_lt_of_le hd0lt hshb
      have hcast : int_of_uint ((ndindexGo rest off).2 % sh) =
          (((ndindexGo rest off).2 % sh : ℕ) : ℤ) := int_of_uint_small _ hd031
      have hst : size_t_of_int ((((ndindexGo rest off).2 % sh : ℕ) : ℤ)) =
          (ndindexGo rest off).2 % sh :=
        size_t_of_int_natCast _ (lt_trans hd031 (by norm_num))
      refine ⟨?_, ?_, ?_⟩
      · show (ndoffsetGo ((st + int_of_uint ((ndindexGo rest off).2 % sh), st, sh) ::
            zip3idx (List.zipWith (fun st d => st + int_of_uint d) sts (ndindexGo rest off).1)
            sts rest)).1 = off % (sh :: rest).prod % 18446744073709551616
        simp only [ndoffsetGo, List.prod_cons]
        rw [hcast, add_sub_cancel_left, hst, ihv, ihw, ihd]
        have hmq : (off % rest.prod % 18446744073709551616 +
              off / rest.prod % sh * (rest.prod % 18446744073709551616)) %
              18446744073709551616 =
            (off % rest.prod + off / rest.prod % sh * rest.prod) %
              18446744073709551616 :=
          Nat.ModEq.add (Nat.mod_modEq (off % rest.prod) 18446744073709551616)
            (Nat.ModEq.mul_left (off / rest.prod % sh)
              (Nat.mod_modEq rest.prod 18446744073709551616))
        rw [hmq]
        congr 1
        rw [show sh * rest.prod = rest.prod * sh from Nat.mul_comm sh rest.prod]
        rw [Nat.mod_mul]
        ring
      · show (ndoffsetGo ((st + int_of_uint ((ndindexGo rest off).2 % sh), st, sh) ::
            zip3idx (List.zipWith (fun st d => st + int_of_uint d) sts (ndindexGo rest off).1)
            sts rest)).2 = (sh :: rest).prod % 18446744073709551616
        simp only [ndoffsetGo, List.prod_cons]
        rw [ihw]
        have hmq : (rest.prod % 18446744073709551616 * sh) % 18446744073709551616 =
            (rest.prod * sh) % 18446744073709551616 :=
          Nat.ModEq.mul_right sh (Nat.mod_modEq rest.prod 18446744073709551616)
        rw [hmq, Nat.mul_comm rest.prod sh]
      · show (ndindexGo rest off).2 / sh = off / (sh :: rest).prod
        rw [ihd, List.prod_cons, Nat.div_div_eq_div_mul,
          Nat.mul_comm rest.prod sh]

/-- In-range bounds on every dimension force every shape component to be
positive. -/
theorem shape_pos_of_bounds :
    ∀ (shs : List ℕ) (sts idx : List ℤ), sts.length = shs.length →
      idx.length = shs.length →
      (∀ t ∈ zip3idx idx sts shs, t.2.1 ≤ t.1 ∧ t.1 < t.2.1 + (t.2.2 : ℤ)) →
      ∀ s ∈ shs, 0 < s := by
  intro shs
  induction shs with
  | nil => intro sts idx h1 h2 hb s hs; simp at hs
  | cons sh rest ih =>
    intro sts idx h1 h2 hb s hs
    cases sts with
    | nil => simp at h1
    | cons st sts =>
      cases idx with
      | nil => simp at h2
      | cons i is =>
        simp only [List.length_cons, Nat.succ.injEq] at h1 h2
        rcases List.mem_cons.mp hs with rfl | hs2
        · have hh : st ≤ i ∧ i < st + (s : ℤ) := hb (i, st, s) (by simp [zip3idx])
          omega
        · exact ih sts is h1 h2
            (fun t ht => hb t (by simp [zip3idx] at ht ⊢; tauto)) s hs2

/-- When every dimension is in range and the exact shape product fits in a
`size_t`, the wrapping offset loop agrees with the unbounded reference loop,
whose offset stays below its stride (the shape product). -/
theorem ndoffsetGo_exact_of_bounds :
    ∀ (shs : List ℕ) (sts idx : List ℤ), sts.length = shs.length →
      idx.length = shs.length →
      (∀ t ∈ zip3idx idx sts shs, t.2.1 ≤ t.1 ∧ t.1 < t.2.1 + (t.2.2 : ℤ)) →
      shs.prod < 18446744073709551616 →
      ndoffsetGo (zip3idx idx sts shs) = ndoffsetGoRef (zip3idx idx sts shs) ∧
      (ndoffsetGoRef (zip3idx idx sts shs)).1 < (ndoffsetGoRef (zip3idx idx sts shs)).2 ∧
      (ndoffsetGoRef (zip3idx idx sts shs)).2 = shs.prod := by
  intro shs
  induction shs with
  | nil =>
    intro sts idx h1 h2 hb hprod
    rw [List.length_nil, List.length_eq_zero] at h1 h2
    subst h1
    subst h2
    exact ⟨rfl, by norm_num [zip3idx, ndoffsetGoRef], by simp [zip3idx, ndoffsetGoRef]⟩
  | cons sh rest ih =>
    intro sts idx h1 h2 hb hprod
    cases sts with
    | nil => simp at h1
    | cons st sts =>
      cases idx with
      | nil => simp at h2
      | cons i is =>
        simp only [List.length_cons, Nat.succ.injEq] at h1 h2
        have hbh : st ≤ i ∧ i < st + (sh : ℤ) := hb (i, st, sh) (by simp [zip3idx])
        have hbt : ∀ t ∈ zip3idx is sts rest, t.2.1 ≤ t.1 ∧ t.1 < t.2.1 + (t.2.2 : ℤ) := by
          intro t ht
          exact hb t (by simp [zip3idx] at ht ⊢; tauto)
        have hpos : ∀ s ∈ rest, 0 < s := shape_pos_of_bounds rest sts is h1 h2 hbt
        have hsh0 : 0 < sh := by omega
        have hPpos : 0 < rest.prod := List.prod_pos hpos
        have hprodcons : (sh :: rest).prod = sh * rest.prod := List.prod_cons
        have hprodrest : rest.prod < 18446744073709551616 := by
          have : rest.prod ≤ sh * rest.prod := Nat.le_mul_of_pos_left _ hsh0
          omega
        obtain ⟨heq, hlt, hstr⟩ := ih sts is h1 h2 hbt hprodrest
        have hd : (i - st).toNat < sh := by omega
        have hdU : (i - st).toNat < 18446744073709551616 := by
          have : sh ≤ sh * rest.prod := Nat.le_mul_of_pos_right _ hPpos
          omega
        have hcast : size_t_of_int (i - st) = (i - st).toNat := by
          rw [show i - st = (((i - st).toNat : ℕ) : ℤ) by omega]
          exact size_t_of_int_natCast _ hdU
        have hofflt : (ndoffsetGoRef (zip3idx is sts rest)).1 +
            (i - st).toNat * (ndoffsetGoRef (zip3idx is sts rest)).2 <
            (ndoffsetGoRef (zip3idx is sts rest)).2 * sh := by
          calc (ndoffsetGoRef (zip3idx is sts rest)).1 +
              (i - st).toNat * (ndoffsetGoRef (zip3idx is sts rest)).2
              < (1 + (i - st).toNat) * (ndoffsetGoRef (zip3idx is sts rest)).2 := by
                have := hlt
                ring_nf
                omega
            _ ≤ sh * (ndoffsetGoRef (zip3idx is sts rest)).2 :=
                Nat.mul_le_mul_right _ (by omega)
            _ = (ndoffsetGoRef (zip3idx is sts rest)).2 * sh := Nat.mul_comm _ _
        have hu : (ndoffsetGoRef (zip3idx is sts rest)).2 * sh <
            18446744073709551616 := by
          rw [hstr, Nat.mul_comm rest.prod sh]
          omega
        show (((ndoffsetGo (zip3idx is sts rest)).1 +
              size_t_of_int (i - st) * (ndoffsetGo (zip3idx is sts rest)).2) %
              18446744073709551616,
            ((ndoffsetGo (zip3idx is sts rest)).2 * sh) % 18446744073709551616) =
            ndoffsetGoRef ((i, st, sh) :: zip3idx is sts rest) ∧ _ ∧ _
        rw [heq, hcast]
        refine ⟨?_, ?_, ?_⟩
        · show _ = ((ndoffsetGoRef (zip3idx is sts rest)).1 +
              (i - st).toNat * (ndoffsetGoRef (zip3idx is sts rest)).2,
              (ndoffsetGoRef (zip3idx is sts rest)).2 * sh)
          rw [Nat.mod_eq_of_lt (lt_trans hofflt hu), Nat.mod_eq_of_lt hu]
        · show (ndoffsetGoRef ((i, st, sh) :: zip3idx is sts rest)).1 <
            (ndoffsetGoRef ((i, st, sh) :: zip3idx is sts rest)).2
          simp only [ndoffsetGoRef]
          exact hofflt
        · show (ndoffsetGoRef ((i, st, sh) :: zip3idx is sts rest)).2 = (sh :: rest).prod
          simp only [ndoffsetGoRef]
          rw [hstr, hprodcons]
          ring

/-- Encoding an in-range index with the reference loop and decoding the
resulting offset (shifted by `k` full products) yields the index's digits and
leftover `k`. -/
theorem ndoffsetGoRef_decode :
    ∀ (shs : List ℕ) (sts idx : List ℤ) (k : ℕ), sts.length = shs.length →
      idx.length = shs.length →
      (∀ t ∈ zip3idx idx sts shs, t.2.1 ≤ t.1 ∧ t.1 < t.2.1 + (t.2.2 : ℤ)) →
      ndindexGo shs ((ndoffsetGoRef (zip3idx idx sts shs)).1 + k * shs.prod) =
        (List.zipWith (fun (i st : ℤ) => (i - st).toNat) idx sts, k) := by
  intro shs
  induction shs with
  | nil =>
    intro sts idx k h1 h2 hb
    rw [List.length_nil, List.length_eq_zero] at h1 h2
    subst h1
    subst h2
    simp [zip3idx, ndoffsetGoRef, ndindexGo]
  | cons sh rest ih =>
    intro sts idx k h1 h2 hb
    cases sts with
    | nil => simp at h1
    | cons st sts =>
      cases idx with
      | nil => simp at h2
      | cons i is =>
        simp only [List.length_cons, Nat.succ.injEq] at h1 h2
        have hbh : st ≤ i ∧ i < st + (sh : ℤ) := hb (i, st, sh) (by simp [zip3idx])
        have hbt : ∀ t ∈ zip3idx is sts rest, t.2.1 ≤ t.1 ∧ t.1 < t.2.1 + (t.2.2 : ℤ) := by
          intro t ht
          exact hb t (by simp [zip3idx] at ht ⊢; tauto)
        have hstr := ndoffsetGoRef_stride rest sts is h1 h2
        have hdlt : (i - st).toNat < sh := by omega
        have hpos : 0 < sh := by omega
        show ndindexGo (sh :: rest)
            ((ndoffsetGoRef ((i, st, sh) :: zip3idx is sts rest)).1 + k * (sh :: rest).prod) =
          ((i - st).toNat :: List.zipWith (fun (i st : ℤ) => (i - st).toNat) is sts, k)
        simp only [ndoffsetGoRef, ndindexGo, List.prod_cons]
        have harith : (ndoffsetGoRef (zip3idx is sts rest)).1 +
            (i - st).toNat * (ndoffsetGoRef (zip3idx is sts rest)).2 + k * (sh * rest.prod) =
            (ndoffsetGoRef (zip3idx is sts rest)).1 +
              ((i - st).toNat + k * sh) * rest.prod := by
          rw [hstr]
          ring
        rw [harith, ih sts is ((i - st).toNat + k * sh) h1 h2 hbt]
        rw [Nat.add_mul_mod_self_right, Nat.mod_eq_of_lt hdlt,
          Nat.add_mul_div_right _ _ hpos, Nat.div_eq_of_lt hdlt, Nat.zero_add]

/-- Adding back the start vector to the extracted digits (through the `int`
cast, exact since the bounds keep every digit below `2^31`) recovers an
in-range index. -/
theorem zipWith_digits_recover :
    ∀ (shs : List ℕ) (sts idx : List ℤ), sts.length = shs.length →
      idx.length = shs.length →
      (∀ t ∈ zip3idx idx sts shs,
        t.2.1 ≤ t.1 ∧ t.1 < t.2.1 + (t.2.2 : ℤ) ∧ t.2.2 ≤ 2147483648) →
      List.zipWith (fun st d => st + int_of_uint d) sts
        (List.zipWith (fun (i st : ℤ) => (i - st).toNat) idx sts) = idx := by
  intro shs
  induction shs with
  | nil =>
    intro sts idx h1 h2 hb
    rw [List.length_nil, List.length_eq_zero] at h1 h2
    subst h1
    subst h2
    simp
  | cons sh rest ih =>
    intro sts idx h1 h2 hb
    cases sts with
    | nil => simp at h1
    | cons st sts =>
      cases idx with
      | nil => simp at h2
      | cons i is =>
        simp only [List.length_cons, Nat.succ.injEq] at h1 h2
        have hbh : st ≤ i ∧ i < st + (sh : ℤ) ∧ sh ≤ 2147483648 :=
          hb (i, st, sh) (by simp [zip3idx])
        have hbt : ∀ t ∈ zip3idx is sts rest,
            t.2.1 ≤ t.1 ∧ t.1 < t.2.1 + (t.2.2 : ℤ) ∧ t.2.2 ≤ 2147483648 := by
          intro t ht
          exact hb t (by simp [zip3idx] at ht ⊢; tauto)
        simp only [List.zipWith_cons_cons, List.cons.injEq]
        refine ⟨?_, ih sts is h1 h2 hbt⟩
        rw [int_of_uint_small _ (by omega)]
        omega

/-- A passing `contains` check with `unsigned int`-representable shapes forces
every dimension into exact range with a shape component of at most `2^31`
(larger components make `static_cast<int>(shape)` negative and the check
unsatisfiable). -/
theorem contains_bounds (sp : index_space_t) (idx : List ℤ)
    (hsh : ∀ s ∈ sp.shape, s < 4294967296) (hcont : contains sp idx = true) :
    ∀ t ∈ zip3idx idx sp.start sp.shape,
      t.2.1 ≤ t.1 ∧ t.1 < t.2.1 + (t.2.2 : ℤ) ∧ t.2.2 ≤ 2147483648 := by
  intro t ht
  have hc := of_decide_eq_true (List.all_eq_true.mp hcont t ht)
  have hs : t.2.2 ∈ sp.shape := by
    have h1 : t.2 ∈ List.zip sp.start sp.shape := (List.of_mem_zip ht).2
    exact (List.of_mem_zip h1).2
  have hs32 := hsh _ hs
  have hio : int_of_uint t.2.2 =
      if t.2.2 < 2147483648 then ((t.2.2 : ℕ) : ℤ) else ((t.2.2 : ℕ) : ℤ) - 4294967296 := by
    unfold int_of_uint
    rw [Nat.mod_eq_of_lt hs32]
  rw [hio] at hc
  by_cases hlt : t.2.2 < 2147483648
  · rw [if_pos hlt] at hc
    exact ⟨hc.1, hc.2, by omega⟩
  · rw [if_neg hlt] at hc
    exfalso
    omega

/-- C10 counterexample: the claim as stated fails on the machine semantics.
First half: the 1-D space of shape `2^32 - 1` at offset `2^31` — the digit's
`static_cast<int>` is negative, so re-encoding wraps to `2^64 - 2^31` instead
of the offset.  Second half: the 3-D space of shape `(2^30, 2^30, 2^30)`
(contained index `(2^29, 0, 0)`) — the `size_t` stride accumulation wraps
modulo `2^64`, the encoded offset collapses to `0` and decoding returns the
origin instead of the index. -/
theorem ndoffset_ndindex_machine_counterexample :
    (([4294967295] : List ℕ).all (fun s => decide (0 < s)) = true) ∧
    2147483648 < size ⟨[0], [4294967295]⟩ ∧
    ndoffset ⟨[0], [4294967295]⟩ (ndindex ⟨[0], [4294967295]⟩ 2147483648) =
      18446744071562067968 ∧
    ¬ ((18446744071562067968 : ℕ) = 2147483648) ∧
    contains ⟨[0, 0, 0], [1073741824, 1073741824, 1073741824]⟩ [536870912, 0, 0] = true ∧
    ndindex ⟨[0, 0, 0], [1073741824, 1073741824, 1073741824]⟩
        (ndoffset ⟨[0, 0, 0], [1073741824, 1073741824, 1073741824]⟩ [536870912, 0, 0]) =
      [0, 0, 0] ∧
    ¬ (([0, 0, 0] : List ℤ) = [536870912, 0, 0]) := by
  decide

/-- C10 amended: flat offsets and multi-dimensional indices are mutually
inverse under row-major ordering as long as the machine bounds are respected:
`ndoffset ∘ ndindex` is the identity on `[0, size)` when the shape components
are positive and at most `2^31` (so every digit survives its `int` cast), and
`ndindex ∘ ndoffset` is the identity on contained indices when the shape
components are `unsigned int`-representable and the shape product fits in a
`size_t` (so the stride accumulation does not wrap). -/
theorem ndoffset_ndindex_inverse (sp : index_space_t)
    (hlen : sp.start.length = sp.shape.length) :
    (∀ off : ℕ, (∀ s ∈ sp.shape, 0 < s) → (∀ s ∈ sp.shape, s ≤ 2147483648) →
      off < size sp → ndoffset sp (ndindex sp off) = off) ∧
    (∀ idx : List ℤ, idx.length = sp.shape.length →
      (∀ s ∈ sp.shape, s < 4294967296) → contains sp idx = true →
      sp.shape.prod < 18446744073709551616 →
      ndindex sp (ndoffset sp idx) = idx) := by
  constructor
  · intro off hpos hbnd hoff
    unfold ndoffset ndindex
    obtain ⟨h1, -, -⟩ := ndindexGo_encode sp.shape sp.start off hlen hpos hbnd
    rw [h1]
    rw [Nat.mod_eq_of_lt (lt_of_lt_of_le hoff (size_le_prod sp))]
    have := size_lt_u32 sp
    exact Nat.mod_eq_of_lt (by omega)
  · intro idx hlen2 hsh hcont hprod
    have hb3 := contains_bounds sp idx hsh hcont
    have hb : ∀ t ∈ zip3idx idx sp.start sp.shape,
        t.2.1 ≤ t.1 ∧ t.1 < t.2.1 + (t.2.2 : ℤ) :=
      fun t ht => ⟨(hb3 t ht).1, (hb3 t ht).2.1⟩
    unfold ndindex ndoffset
    obtain ⟨heq, -, -⟩ := ndoffsetGo_exact_of_bounds sp.shape sp.start idx hlen hlen2 hb hprod
    rw [heq]
    have hdec := ndoffsetGoRef_decode sp.shape sp.start idx 0 hlen hlen2 hb
    rw [Nat.zero_mul, Nat.add_zero] at hdec
    rw [hdec]
    exact zipWith_digits_recover sp.shape sp.start idx hlen hlen2 hb3

/-- Witness for `ndoffset_ndindex_inverse` on the 2-D space with start
`(0, 1)` and shape `(2, 3)`. -/
theorem ndoffset_ndindex_inverse_witness :
    ndoffset ⟨[0, 1], [2, 3]⟩ (ndindex ⟨[0, 1], [2, 3]⟩ 4) = 4 ∧
    ndindex ⟨[0, 1], [2, 3]⟩ (ndoffset ⟨[0, 1], [2, 3]⟩ [1, 3]) = [1, 3] :=
  ⟨(ndoffset_ndindex_inverse ⟨[0, 1], [2, 3]⟩ rfl).1 4 (by decide) (by decide) (by decide),
   (ndoffset_ndindex_inverse ⟨[0, 1], [2, 3]⟩ rfl).2 [1, 3] (by decide) (by decide)
     (by decide) (by decide)⟩

end mist

